import Mathlib

/-!
Verification of the DataclassHelpers repository (src/descriptors.py, src/mixins.py).

The development shallowly embeds the repository's data model:
Python values become the inductive type PyVal, descriptor policies become
FieldKind, entity classes become EntityType, and the import/export traversals
of ImportJsonMixin / ExportJsonMixin / FlatExportJsonMixin become fueled
functions returning Except PyErr results, where a Python exception is an
error value.
-/

namespace DataclassHelpers

/-- Python runtime values relevant to the repository: None, bool, int,
float (modelled as an exact rational; IEEE rounding is not modelled),
str, uuid.UUID (its 128-bit integer), lists, string-keyed dicts,
dataclass entity instances (class name plus the instance dict), instances
of StringWrapperObject subclasses (class name plus their value slot), and
a field-descriptor object (which ImportJsonMixin can pass to a setter when
a key is absent, see src/mixins.py line 46-48). -/
inductive PyVal where
  | none
  | bool (b : Bool)
  | int (n : Int)
  | float (q : Rat)
  | str (s : String)
  | uuid (u : Nat)
  | list (xs : List PyVal)
  | dict (xs : List (String × PyVal))
  | ent (ty : String) (attrs : List (String × PyVal))
  | wrap (cls : String) (value : Option String)
  | descr
  deriving Repr, Inhabited

/-- The None test the import code performs on raw values. -/
def PyVal.isNone : PyVal → Bool
  | .none => true
  | _ => false

/-- Python exceptions raised by the modelled code paths. -/
inductive PyErr where
  | valueError (msg : String)
  | typeError (msg : String)
  | attributeError (msg : String)
  | overflowError (msg : String)
  | exception (msg : String)
  | missingRequiredFields (names : List String)
  | lookupFailed (msg : String)
  | fuelOut
  deriving Repr, DecidableEq

/-- Association-list lookup on string-keyed pairs (Python dict lookup;
with duplicate keys the first occurrence wins, which matches dicts that
never hold duplicates). -/
def alookup : List (String × PyVal) → String → Option PyVal
  | [], _ => Option.none
  | (k, v) :: rest, name => if k = name then Option.some v else alookup rest name

/-- Python truthiness of a modelled value (bool(v)). Entity, wrapper and
descriptor objects define neither a bool nor a len hook, hence are truthy. -/
def pyTruthy : PyVal → Bool
  | .none => false
  | .bool b => b
  | .int n => decide (n ≠ 0)
  | .float q => decide (q ≠ 0)
  | .str s => decide (s ≠ "")
  | .uuid _ => true
  | .list xs => !xs.isEmpty
  | .dict xs => !xs.isEmpty
  | .ent _ _ => true
  | .wrap _ _ => true
  | .descr => true

/-- Result of Python float(s): a finite value, an infinity, or NaN. -/
inductive PFloat where
  | finite (q : Rat)
  | inf
  | neginf
  | nan
  deriving Repr, DecidableEq

namespace Parse

def digitVal (c : Char) : Nat := c.toNat - 48

def allDigits (cs : List Char) : Bool := cs.all Char.isDigit

def digitsToNat (cs : List Char) : Nat :=
  cs.foldl (fun a c => a * 10 + digitVal c) 0

/-- str.strip with no argument: surrounding whitespace removed. -/
def trimChars (cs : List Char) : List Char :=
  ((cs.dropWhile Char.isWhitespace).reverse.dropWhile Char.isWhitespace).reverse

/-- Split a character list at the first occurrence of a separator. -/
def splitAtChar (sep : Char) : List Char → Option (List Char × List Char)
  | [] => Option.none
  | c :: rest =>
    if c = sep then Option.some ([], rest)
    else match splitAtChar sep rest with
      | Option.some (a, b) => Option.some (c :: a, b)
      | Option.none => Option.none

/-- Parse an optional sign, returning (negative?, rest). -/
def parseSign : List Char → Bool × List Char
  | '+' :: rest => (false, rest)
  | '-' :: rest => (true, rest)
  | cs => (false, cs)

/-- Parse the digit string of a Python decimal float mantissa, returning the
value scaled to an integer together with the number of fractional digits. -/
def parseMantissa (cs : List Char) : Option (Nat × Nat) :=
  match splitAtChar '.' cs with
  | Option.none =>
    if cs ≠ [] ∧ allDigits cs then Option.some (digitsToNat cs, 0) else Option.none
  | Option.some (ip, fp) =>
    if (ip ≠ [] ∨ fp ≠ []) ∧ allDigits ip ∧ allDigits fp then
      Option.some (digitsToNat (ip ++ fp), fp.length)
    else Option.none

/-- Parse an optional exponent part (the characters after the e, if any). -/
def parseExpPart (cs : List Char) : Option Int :=
  let (neg, ds) := parseSign cs
  if ds ≠ [] ∧ allDigits ds then
    Option.some (if neg then -(digitsToNat ds : Int) else (digitsToNat ds : Int))
  else Option.none

/-- The overflow threshold of a double: finite magnitudes at or beyond
2^1024 become an infinity when Python converts the literal. -/
def floatMax : Rat := ((2 : Rat) ^ (1024 : Nat))

/-- Model of Python float(s): strip surrounding whitespace, accept an
optional sign followed by inf / infinity / nan (case-insensitive) or a
decimal literal with optional fraction and exponent. Digit-group
underscores and IEEE rounding of the mantissa are not modelled; the exact
rational is kept, with magnitudes at or beyond 2^1024 mapped to the
infinities as Python float conversion does. -/
def pyFloat (s : String) : Option PFloat :=
  let cs := trimChars s.toList
  let (neg, body) := parseSign cs
  let lower := String.mk (body.map Char.toLower)
  if lower = "inf" ∨ lower = "infinity" then
    Option.some (if neg then PFloat.neginf else PFloat.inf)
  else if lower = "nan" then Option.some PFloat.nan
  else
    let (mant, expPart) :=
      match splitAtChar 'e' body with
      | Option.some (a, b) => (a, Option.some b)
      | Option.none =>
        match splitAtChar 'E' body with
        | Option.some (a, b) => (a, Option.some b)
        | Option.none => (body, Option.none)
    match parseMantissa mant with
    | Option.none => Option.none
    | Option.some (scaled, fracDigits) =>
      let e : Option Int :=
        match expPart with
        | Option.none => Option.some 0
        | Option.some cs => parseExpPart cs
      match e with
      | Option.none => Option.none
      | Option.some ex =>
        let mag : Rat :=
          (scaled : Rat) / ((10 : Rat) ^ fracDigits) *
            (if ex ≥ 0 then (10 : Rat) ^ ex.toNat else ((10 : Rat) ^ (-ex).toNat)⁻¹)
        if mag ≥ floatMax then
          Option.some (if neg then PFloat.neginf else PFloat.inf)
        else
          Option.some (PFloat.finite (if neg then -mag else mag))

/-- Model of Python int(s) on a string: strip whitespace, optional sign,
then decimal digits only (so int applied to a float-looking string fails,
matching the int call in ListOfIntDescriptor). -/
def pyIntLit (s : String) : Option Int :=
  let cs := trimChars s.toList
  let (neg, ds) := parseSign cs
  if ds ≠ [] ∧ allDigits ds then
    Option.some (if neg then -(digitsToNat ds : Int) else (digitsToNat ds : Int))
  else Option.none

def isHexDigit (c : Char) : Bool :=
  c.isDigit ∨ ('a' ≤ c.toLower ∧ c.toLower ≤ 'f')

def hexVal (c : Char) : Nat :=
  if c.isDigit then digitVal c else c.toLower.toNat - 87

def hexToNat (cs : List Char) : Nat :=
  cs.foldl (fun a c => a * 16 + hexVal c) 0

/-- Model of uuid.UUID(s): the constructor deletes urn: and uuid: fragments,
strips surrounding braces, removes hyphens, and then requires exactly 32
hexadecimal digits. -/
def pyUuid (s : String) : Option Nat :=
  let s₁ := (s.replace "urn:" "").replace "uuid:" ""
  let cs := s₁.toList.dropWhile (fun c => c = '{' ∨ c = '}')
  let cs := (cs.reverse.dropWhile (fun c => c = '{' ∨ c = '}')).reverse
  let cs := cs.filter (fun c => c ≠ '-')
  if cs.length = 32 ∧ cs.all isHexDigit then Option.some (hexToNat cs)
  else Option.none

end Parse

/-- Truncation of a rational toward zero, as Python int(float) does. -/
def ratTrunc (q : Rat) : Int := if 0 ≤ q then q.floor else q.ceil

/-- Lowercase hexadecimal digits of n, most significant first, padded. -/
def hexDigitsAux : Nat → Nat → List Char
  | 0, _ => []
  | Nat.succ k, n =>
    hexDigitsAux k (n / 16) ++
      [Char.ofNat (if n % 16 < 10 then 48 + n % 16 else 87 + n % 16)]

/-- The canonical textual form of a uuid.UUID (8-4-4-4-12 lowercase hex). -/
def uuidRepr (u : Nat) : String :=
  let ds := hexDigitsAux 32 u
  String.mk (ds.take 8) ++ "-" ++ String.mk ((ds.drop 8).take 4) ++ "-" ++
    String.mk ((ds.drop 12).take 4) ++ "-" ++ String.mk ((ds.drop 16).take 4) ++
    "-" ++ String.mk (ds.drop 20)

/-- Model of Python str(v). Reprs of container, entity, wrapper and
descriptor objects are address-dependent in Python; the model renders them
as fixed placeholder texts, which no claim depends on. The float repr is
likewise approximate. -/
def pyStr : PyVal → String
  | .none => "None"
  | .bool b => if b then "True" else "False"
  | .int n => toString n
  | .float q => toString q
  | .str s => s
  | .uuid u => uuidRepr u
  | .list _ => "<list>"
  | .dict _ => "<dict>"
  | .ent ty _ => "<" ++ ty ++ " object>"
  | .wrap cls _ => "<" ++ cls ++ " object>"
  | .descr => "<descriptor object>"

/-- A resolved default source: the default_factory attribute a descriptor
ends up with after __init__, as a thunk that may raise. -/
def DF := Unit → Except PyErr PyVal

/-- Running a default source. -/
def runDF (df : DF) : Except PyErr PyVal := df ()

/-- raise_on_value_missed from FieldDescriptor: the default source a
descriptor falls back to when neither default nor default_factory was
given. -/
def raiseOnValueMissed : DF :=
  fun _ => Except.error (PyErr.valueError "Value have no default value and must be set")

/-- The accessor policy of one declared attribute.
plain is a dataclass field with no descriptor (a literal default, a
default factory, or neither); every other constructor is one descriptor
class of src/descriptors.py carrying its resolved default source:
intStr = IntStringDescriptor, boolInt = BoolToIntDescriptor,
strUuid = StrUuidDescriptor, listInt = ListOfIntDescriptor,
listUuid = ListOfUuidDescriptor, strWrap = StringWrapperDescriptor,
single = SingleObjectDescriptor, olist = ObjectListDescriptor,
omap = MapObjectDescriptor. -/
inductive FieldKind where
  | plain (default : Option PyVal) (factory : Option (Unit → PyVal))
  | intStr (df : DF)
  | boolInt (df : DF)
  | strUuid (df : DF) (raiseOnError : Bool)
  | listInt (df : DF)
  | listUuid (df : DF) (raiseOnError : Bool)
  | strWrap (cls : String) (df : DF)
  | single (cls : String) (df : DF)
  | olist (cls : String) (df : DF)
  | omap (cls : String) (df : DF)

/-- Whether the dataclass default of this field is an ObjectFieldDescriptor
instance (the is_model test of ImportJsonMixin.__init__): exactly the
single-, list- and map-of-entity descriptors inherit ObjectFieldDescriptor. -/
def FieldKind.isModel : FieldKind → Bool
  | .single _ _ => true
  | .olist _ _ => true
  | .omap _ _ => true
  | _ => false

/-- An entity class: its declared attributes in declaration order, and
whether the class carries an ExportJsonMixin-style to_json method. -/
structure EntityType where
  fields : List (String × FieldKind)
  hasToJson : Bool

/-- The set of entity classes of a program, by class name. -/
def Env := List (String × EntityType)

def lookupTy : Env → String → Option EntityType
  | [], _ => Option.none
  | (k, v) :: rest, name => if k = name then Option.some v else lookupTy rest name

/-- validate_required_fields of ImportJsonMixin: the declared attributes
with neither a dataclass default nor a default factory (only plain fields
qualify, since a descriptor object is itself a non-MISSING default) that
are absent from the input or explicitly mapped to None, in declaration
order. -/
def requiredMissing (T : EntityType) (m : List (String × PyVal)) : List String :=
  T.fields.filterMap fun p =>
    match p.2 with
    | .plain Option.none Option.none =>
      match alookup m p.1 with
      | Option.none => Option.some p.1
      | Option.some .none => Option.some p.1
      | Option.some _ => Option.none
    | _ => Option.none

/-- has_required_fields of ImportJsonMixin: true iff at least one declared
attribute has neither a default nor a factory; a name that is not an
importable dataclass counts as having none. -/
def hasRequiredFields (env : Env) (cls : String) : Bool :=
  match lookupTy env cls with
  | Option.none => false
  | Option.some T =>
    T.fields.any fun p =>
      match p.2 with
      | .plain Option.none Option.none => true
      | _ => false

/-- kwargs.get(name): absent keys read as None. -/
def pyGet (m : List (String × PyVal)) (name : String) : PyVal :=
  match alookup m name with
  | Option.some v => v
  | Option.none => PyVal.none

/-- The raw value ImportJsonMixin.__init__ passes to the accessor of a
descriptor-governed nested-entity attribute: the key's value when the key
is present, the entire input mapping otherwise. -/
def importArg (name : String) (m : List (String × PyVal)) : PyVal :=
  match alookup m name with
  | Option.some v => v
  | Option.none => PyVal.dict m

/-- The value ImportJsonMixin.__init__ stores for a plain (descriptor-free)
field: a present non-None value is kept raw; an absent or None value takes
the default factory when one exists, else the literal default when one
exists, else None. -/
def importPlainVal (default : Option PyVal) (factory : Option (Unit → PyVal))
    (nv : PyVal) : PyVal :=
  match factory with
  | Option.some f => if nv.isNone then f () else nv
  | Option.none =>
    if nv.isNone then
      match default with
      | Option.some d => d
      | Option.none => PyVal.none
    else nv

/-- int(item) applied by ListOfIntDescriptor to a list element: ints stay,
bools become 0/1, floats truncate toward zero, strings must be pure
integer literals; anything else makes int raise and the item is skipped. -/
def pyIntOf : PyVal → Option PyVal
  | .int n => Option.some (PyVal.int n)
  | .bool b => Option.some (PyVal.int (if b then 1 else 0))
  | .float q => Option.some (PyVal.int (ratTrunc q))
  | .str s =>
    match Parse.pyIntLit s with
    | Option.some n => Option.some (PyVal.int n)
    | Option.none => Option.none
  | _ => Option.none

/-- The item loop of ListOfUuidDescriptor.__set__: UUID instances are
kept; any other item goes through uuid.UUID(str(item)), a failure raising
in strict mode and skipping the item otherwise. -/
def listUuidConv (roe : Bool) : List PyVal → Except PyErr (List PyVal)
  | [] => Except.ok []
  | x :: rest =>
    match x with
    | .uuid u =>
      match listUuidConv roe rest with
      | Except.error e => Except.error e
      | Except.ok ys => Except.ok (PyVal.uuid u :: ys)
    | other =>
      match Parse.pyUuid (pyStr other) with
      | Option.some u =>
        match listUuidConv roe rest with
        | Except.error e => Except.error e
        | Except.ok ys => Except.ok (PyVal.uuid u :: ys)
      | Option.none =>
        if roe then Except.error (PyErr.exception ("Invalid UUID value: " ++ pyStr other))
        else listUuidConv roe rest

mutual

/-- ImportJsonMixin.__init__ seen from the caller: validate required
fields against the input, then assign every declared field in order,
producing the constructed entity or the exception that escaped. Fuel
bounds the recursion through nested-entity construction (the code can
genuinely recurse forever, e.g. a class whose optional single-object field
refers back to the same class). -/
def importE : Nat → Env → String → List (String × PyVal) → Except PyErr PyVal
  | 0, _, _, _ => Except.error PyErr.fuelOut
  | Nat.succ fuel, env, tyName, m =>
    match lookupTy env tyName with
    | Option.none => Except.error (PyErr.lookupFailed tyName)
    | Option.some T =>
      let miss := requiredMissing T m
      if miss = [] then
        match importFields fuel env m T.fields with
        | Except.ok attrs => Except.ok (PyVal.ent tyName attrs)
        | Except.error e => Except.error e
      else Except.error (PyErr.missingRequiredFields miss)

/-- The per-field loop of ImportJsonMixin.__init__, building the instance
dict in declaration order. -/
def importFields : Nat → Env → List (String × PyVal) →
    List (String × FieldKind) → Except PyErr (List (String × PyVal))
  | 0, _, _, _ => Except.error PyErr.fuelOut
  | Nat.succ _, _, _, [] => Except.ok []
  | Nat.succ fuel, env, m, (name, k) :: rest =>
    match importFieldVal fuel env m name k with
    | Except.error e => Except.error e
    | Except.ok v =>
      match importFields fuel env m rest with
      | Except.error e => Except.error e
      | Except.ok attrs => Except.ok ((name, v) :: attrs)

/-- One iteration of the import loop: pick the raw value for the field
according to the branch structure of ImportJsonMixin.__init__, then run
the assignment. For an ObjectFieldDescriptor field, the key's value (or
the whole mapping) goes through the descriptor setter. A plain field is
stored directly after default/factory substitution. Any other descriptor
field has a MISSING dataclass factory and a non-ObjectFieldDescriptor
default, so a present value is assigned raw and an absent or None value
assigns the descriptor object itself (sf_field.default). -/
def importFieldVal : Nat → Env → List (String × PyVal) → String → FieldKind →
    Except PyErr PyVal
  | 0, _, _, _, _ => Except.error PyErr.fuelOut
  | Nat.succ fuel, env, m, name, k =>
    match k with
    | .plain d f => Except.ok (importPlainVal d f (pyGet m name))
    | .single cls df => setField fuel env (.single cls df) (importArg name m)
    | .olist cls df => setField fuel env (.olist cls df) (importArg name m)
    | .omap cls df => setField fuel env (.omap cls df) (importArg name m)
    | other =>
      let nv := pyGet m name
      setField fuel env other (if nv.isNone then PyVal.descr else nv)

/-- The __set__ method of each descriptor class, returning the canonical
value stored into the instance dict, or the exception raised. -/
def setField : Nat → Env → FieldKind → PyVal → Except PyErr PyVal
  | 0, _, _, _ => Except.error PyErr.fuelOut
  | Nat.succ _, _, .plain _ _, v => Except.ok v
  | Nat.succ _, _, .intStr df, v =>
    match v with
    | .none => runDF df
    | .str s =>
      if s = "" then runDF df
      else
        match Parse.pyFloat s with
        | Option.some (PFloat.finite q) => Except.ok (PyVal.int (ratTrunc q))
        | Option.some PFloat.inf =>
          Except.error (PyErr.overflowError "cannot convert float infinity to integer")
        | Option.some PFloat.neginf =>
          Except.error (PyErr.overflowError "cannot convert float infinity to integer")
        | Option.some PFloat.nan => runDF df
        | Option.none => runDF df
    | .bool b => Except.ok (PyVal.int (if b then 1 else 0))
    | .int n => Except.ok (PyVal.int n)
    | .float q => Except.ok (PyVal.int (ratTrunc q))
    | _ => runDF df
  | Nat.succ _, _, .boolInt df, v =>
    match v with
    | .none => runDF df
    | .bool b => Except.ok (PyVal.int (if b then 1 else 0))
    | .int n => Except.ok (PyVal.int (if n ≠ 0 then 1 else 0))
    | _ => runDF df
  | Nat.succ _, _, .strUuid df roe, v =>
    if ¬ pyTruthy v then runDF df
    else
      match v with
      | .uuid u => Except.ok (PyVal.uuid u)
      | .str s =>
        match Parse.pyUuid s with
        | Option.some u => Except.ok (PyVal.uuid u)
        | Option.none =>
          if roe then Except.error (PyErr.exception (s ++ " is not valid UUID"))
          else runDF df
      | .descr => runDF df
      | other =>
        Except.error (PyErr.exception ("Unsupported type " ++ pyStr other))
  | Nat.succ _, _, .listInt df, v =>
    match v with
    | .list xs => Except.ok (PyVal.list (xs.filterMap pyIntOf))
    | _ => runDF df
  | Nat.succ _, _, .listUuid df roe, v =>
    match v with
    | .none => runDF df
    | .list xs =>
      match listUuidConv roe xs with
      | Except.ok ys => Except.ok (PyVal.list ys)
      | Except.error e => Except.error e
    | _ => runDF df
  | Nat.succ _, _, .strWrap cls df, v =>
    match v with
    | .none => runDF df
    | .bool false => runDF df
    | .wrap c sv =>
      if c = cls then Except.ok (PyVal.wrap c sv)
      else Except.ok (PyVal.wrap cls (Option.some (pyStr (PyVal.wrap c sv))))
    | .dict kw =>
      if kw.isEmpty then Except.ok (PyVal.wrap cls Option.none)
      else Except.error (PyErr.typeError "object.__init__ takes no keyword arguments")
    | other => Except.ok (PyVal.wrap cls (Option.some (pyStr other)))
  | Nat.succ fuel, env, .single cls df, v =>
    if ¬ pyTruthy v then runDF df
    else
      match v with
      | .dict kw => importE fuel env cls kw
      | .ent ty attrs =>
        if ty = cls then Except.ok (PyVal.ent ty attrs)
        else Except.error (PyErr.valueError ("Value must be a dict or a " ++ cls ++ " instance"))
      | _ => Except.error (PyErr.valueError ("Value must be a dict or a " ++ cls ++ " instance"))
  | Nat.succ fuel, env, .olist cls df, v =>
    match v with
    | .list xs =>
      match olistConv fuel env cls xs with
      | Except.ok ys => Except.ok (PyVal.list ys)
      | Except.error e => Except.error e
    | _ => runDF df
  | Nat.succ fuel, env, .omap cls df, v =>
    match v with
    | .dict kvs =>
      match omapConv fuel env cls kvs with
      | Except.ok ys => Except.ok (PyVal.dict ys)
      | Except.error e => Except.error e
    | _ => runDF df

/-- The item loop of ObjectListDescriptor.__set__: mappings are imported
into instances (whose construction errors propagate), matching instances
are kept, anything else is silently skipped. -/
def olistConv : Nat → Env → String → List PyVal → Except PyErr (List PyVal)
  | 0, _, _, _ => Except.error PyErr.fuelOut
  | Nat.succ _, _, _, [] => Except.ok []
  | Nat.succ fuel, env, cls, x :: rest =>
    match x with
    | .dict kw =>
      match importE fuel env cls kw with
      | Except.error e => Except.error e
      | Except.ok y =>
        match olistConv fuel env cls rest with
        | Except.error e => Except.error e
        | Except.ok ys => Except.ok (y :: ys)
    | .ent ty attrs =>
      if ty = cls then
        match olistConv fuel env cls rest with
        | Except.error e => Except.error e
        | Except.ok ys => Except.ok (PyVal.ent ty attrs :: ys)
      else olistConv fuel env cls rest
    | _ => olistConv fuel env cls rest

/-- The value loop of MapObjectDescriptor.__set__: matching instances are
kept, mappings are imported into instances, and any other value is
dropped (the pass-through branch in the source is commented out). -/
def omapConv : Nat → Env → String → List (String × PyVal) →
    Except PyErr (List (String × PyVal))
  | 0, _, _, _ => Except.error PyErr.fuelOut
  | Nat.succ _, _, _, [] => Except.ok []
  | Nat.succ fuel, env, cls, (key, x) :: rest =>
    match x with
    | .ent ty attrs =>
      if ty = cls then
        match omapConv fuel env cls rest with
        | Except.error e => Except.error e
        | Except.ok ys => Except.ok ((key, PyVal.ent ty attrs) :: ys)
      else omapConv fuel env cls rest
    | .dict kw =>
      match importE fuel env cls kw with
      | Except.error e => Except.error e
      | Except.ok y =>
        match omapConv fuel env cls rest with
        | Except.error e => Except.error e
        | Except.ok ys => Except.ok ((key, y) :: ys)
    | _ => omapConv fuel env cls rest

end

/-- getattr(obj, name) on an entity, as the export traversals perform it.
A plain field reads the instance dict and falls back to the class
attribute (the literal default); with no literal default the read fails
with AttributeError. A descriptor field runs __get__: every descriptor
except SingleObjectDescriptor returns a stored non-None value and
otherwise calls the default factory afresh; SingleObjectDescriptor tests
membership in the instance dict instead (its first-read caching mutates
the instance and is modelled separately by descGet; on the fully
populated entities export visits, the value returned here coincides). -/
def readAttr (k : FieldKind) (name : String) (attrs : List (String × PyVal)) :
    Except PyErr PyVal :=
  match k with
  | .plain d _ =>
    match alookup attrs name with
    | Option.some v => Except.ok v
    | Option.none =>
      match d with
      | Option.some dv => Except.ok dv
      | Option.none => Except.error (PyErr.attributeError name)
  | .single _ df =>
    match alookup attrs name with
    | Option.some v => Except.ok v
    | Option.none => runDF df
  | .intStr df | .boolInt df | .strUuid df _ | .listInt df | .listUuid df _
  | .strWrap _ df | .olist _ df | .omap _ df =>
    match alookup attrs name with
    | Option.some v => if v.isNone then runDF df else Except.ok v
    | Option.none => runDF df

mutual

/-- recursive_to_json of ExportJsonMixin.to_json: instTy is type(self) of
the mixin call, st the stringify flag. A value with its own to_json whose
type differs from instTy delegates to it (restarting the traversal with
that type and the default stringify=False); dataclass values render their
declared fields in order; lists and dicts render element-wise; everything
else is passed through, or through str when stringify is set. -/
def exportRec : Nat → Env → String → Bool → PyVal → Except PyErr PyVal
  | 0, _, _, _, _ => Except.error PyErr.fuelOut
  | Nat.succ fuel, env, instTy, st, v =>
    match v with
    | .ent ty attrs =>
      match lookupTy env ty with
      | Option.none => Except.error (PyErr.lookupFailed ty)
      | Option.some T =>
        if T.hasToJson ∧ ty ≠ instTy then
          exportRec fuel env ty false (PyVal.ent ty attrs)
        else
          match exportEntFields fuel env instTy st attrs T.fields with
          | Except.ok l => Except.ok (PyVal.dict l)
          | Except.error e => Except.error e
    | .list xs =>
      match exportList fuel env instTy st xs with
      | Except.ok ys => Except.ok (PyVal.list ys)
      | Except.error e => Except.error e
    | .dict xs =>
      match exportPairs fuel env instTy st xs with
      | Except.ok ys => Except.ok (PyVal.dict ys)
      | Except.error e => Except.error e
    | other => Except.ok (if st then PyVal.str (pyStr other) else other)

/-- The dataclass branch of recursive_to_json: one key per declared field,
each value read through getattr and rendered recursively. -/
def exportEntFields : Nat → Env → String → Bool → List (String × PyVal) →
    List (String × FieldKind) → Except PyErr (List (String × PyVal))
  | 0, _, _, _, _, _ => Except.error PyErr.fuelOut
  | Nat.succ _, _, _, _, _, [] => Except.ok []
  | Nat.succ fuel, env, instTy, st, attrs, (name, k) :: rest =>
    match readAttr k name attrs with
    | Except.error e => Except.error e
    | Except.ok v =>
      match exportRec fuel env instTy st v with
      | Except.error e => Except.error e
      | Except.ok j =>
        match exportEntFields fuel env instTy st attrs rest with
        | Except.error e => Except.error e
        | Except.ok l => Except.ok ((name, j) :: l)

def exportList : Nat → Env → String → Bool → List PyVal →
    Except PyErr (List PyVal)
  | 0, _, _, _, _ => Except.error PyErr.fuelOut
  | Nat.succ _, _, _, _, [] => Except.ok []
  | Nat.succ fuel, env, instTy, st, x :: rest =>
    match exportRec fuel env instTy st x with
    | Except.error e => Except.error e
    | Except.ok y =>
      match exportList fuel env instTy st rest with
      | Except.error e => Except.error e
      | Except.ok ys => Except.ok (y :: ys)

def exportPairs : Nat → Env → String → Bool → List (String × PyVal) →
    Except PyErr (List (String × PyVal))
  | 0, _, _, _, _ => Except.error PyErr.fuelOut
  | Nat.succ _, _, _, _, [] => Except.ok []
  | Nat.succ fuel, env, instTy, st, (key, x) :: rest =>
    match exportRec fuel env instTy st x with
    | Except.error e => Except.error e
    | Except.ok y =>
      match exportPairs fuel env instTy st rest with
      | Except.error e => Except.error e
      | Except.ok ys => Except.ok ((key, y) :: ys)

end

/-- ExportJsonMixin.to_json called on an entity instance. -/
def toJsonE (fuel : Nat) (env : Env) (st : Bool) (ty : String)
    (attrs : List (String × PyVal)) : Except PyErr PyVal :=
  exportRec fuel env ty st (PyVal.ent ty attrs)

/-- str.rstrip applied with a dot, as the flat exporter renders leaf keys. -/
def rstripDots (s : String) : String :=
  String.mk ((s.toList.reverse.dropWhile (fun c => c = '.')).reverse)

/-- dict item assignment: an existing key is overwritten in place, a new
key appends. -/
def updOne (m : List (String × PyVal)) (kv : String × PyVal) :
    List (String × PyVal) :=
  match m with
  | [] => [kv]
  | (k, v) :: rest => if k = kv.1 then (k, kv.2) :: rest else (k, v) :: updOne rest kv

/-- dict.update: item assignment for each pair in order. -/
def dictUpd (m adds : List (String × PyVal)) : List (String × PyVal) :=
  adds.foldl updOne m

/-- The key under which the flat exporter merges one pair of a nested
to_json result: prefixed with a dot join when use_prefix is set (an empty
prefix joins bare), the bare key otherwise. -/
def mergeKey (usePref : Bool) (pref : Option String) (k : String) : String :=
  if usePref then
    match pref with
    | Option.some p => if p = "" then k else p ++ "." ++ k
    | Option.none => k
  else k

mutual

/-- recursive_to_json of FlatExportJsonMixin.to_json: rootTy is
type(self), st the stringify flag, usePref the use_prefix flag, and pref
the prefix argument — a string, or Python None as passed by every
recursive call made with use_prefix unset. A leaf evaluates
prefix.rstrip, which on None raises AttributeError. -/
def flatRec : Nat → Env → String → Bool → Bool → PyVal → Option String →
    Except PyErr (List (String × PyVal))
  | 0, _, _, _, _, _, _ => Except.error PyErr.fuelOut
  | Nat.succ fuel, env, rootTy, st, usePref, v, pref =>
    match v with
    | .ent ty attrs =>
      match lookupTy env ty with
      | Option.none => Except.error (PyErr.lookupFailed ty)
      | Option.some T =>
        if T.hasToJson ∧ ty ≠ rootTy then
          match toJsonE fuel env st ty attrs with
          | Except.error e => Except.error e
          | Except.ok (PyVal.dict l) =>
            Except.ok (dictUpd [] (l.map fun p => (mergeKey usePref pref p.1, p.2)))
          | Except.ok nested =>
            match pref with
            | Option.some p => Except.ok [(rstripDots p, nested)]
            | Option.none =>
              Except.error (PyErr.attributeError "NoneType object has no attribute rstrip")
        else
          flatFields fuel env rootTy st usePref attrs T.fields pref []
    | .list xs => flatList fuel env rootTy st usePref xs pref 0 []
    | .dict xs => flatDict fuel env rootTy st usePref xs pref []
    | other =>
      match pref with
      | Option.some p =>
        Except.ok [(rstripDots p, if st then PyVal.str (pyStr other) else other)]
      | Option.none =>
        Except.error (PyErr.attributeError "NoneType object has no attribute rstrip")

/-- The dataclass branch of the flat exporter: each field flattens under
the dot-extended prefix (None when use_prefix is unset) and the pieces
are merged into the accumulated dict with dict.update, left to right. -/
def flatFields : Nat → Env → String → Bool → Bool → List (String × PyVal) →
    List (String × FieldKind) → Option String → List (String × PyVal) →
    Except PyErr (List (String × PyVal))
  | 0, _, _, _, _, _, _, _, _ => Except.error PyErr.fuelOut
  | Nat.succ _, _, _, _, _, _, [], _, acc => Except.ok acc
  | Nat.succ fuel, env, rootTy, st, usePref, attrs, (name, k) :: rest, pref, acc =>
    match readAttr k name attrs with
    | Except.error e => Except.error e
    | Except.ok v =>
      let newPref : Option String :=
        if usePref then
          Option.some (match pref with
            | Option.some p => if p = "" then name else p ++ "." ++ name
            | Option.none => name)
        else Option.none
      match flatRec fuel env rootTy st usePref v newPref with
      | Except.error e => Except.error e
      | Except.ok sub =>
        flatFields fuel env rootTy st usePref attrs rest pref (dictUpd acc sub)

/-- The list branch: element i flattens under prefix[i] when use_prefix
is set, under None otherwise; pieces merge left to right. -/
def flatList : Nat → Env → String → Bool → Bool → List PyVal →
    Option String → Nat → List (String × PyVal) →
    Except PyErr (List (String × PyVal))
  | 0, _, _, _, _, _, _, _, _ => Except.error PyErr.fuelOut
  | Nat.succ _, _, _, _, _, [], _, _, acc => Except.ok acc
  | Nat.succ fuel, env, rootTy, st, usePref, x :: rest, pref, i, acc =>
    let newPref : Option String :=
      if usePref then
        Option.some ((match pref with | Option.some p => p | Option.none => "") ++
          "[" ++ toString i ++ "]")
      else Option.none
    match flatRec fuel env rootTy st usePref x newPref with
    | Except.error e => Except.error e
    | Except.ok sub =>
      flatList fuel env rootTy st usePref rest pref (i + 1) (dictUpd acc sub)

/-- The dict branch: value under key k flattens under prefix.k (bare k on
an empty or None prefix) when use_prefix is set, under None otherwise;
pieces merge left to right. -/
def flatDict : Nat → Env → String → Bool → Bool → List (String × PyVal) →
    Option String → List (String × PyVal) → Except PyErr (List (String × PyVal))
  | 0, _, _, _, _, _, _, _ => Except.error PyErr.fuelOut
  | Nat.succ _, _, _, _, _, [], _, acc => Except.ok acc
  | Nat.succ fuel, env, rootTy, st, usePref, (key, x) :: rest, pref, acc =>
    let newPref : Option String :=
      if usePref then
        Option.some (match pref with
          | Option.some p => if p = "" then key else p ++ "." ++ key
          | Option.none => key)
      else Option.none
    match flatRec fuel env rootTy st usePref x newPref with
    | Except.error e => Except.error e
    | Except.ok sub =>
      flatDict fuel env rootTy st usePref rest pref (dictUpd acc sub)

end

/-- FlatExportJsonMixin.to_json called on an entity instance: the
traversal starts at self with the empty string prefix. -/
def flatToJson (fuel : Nat) (env : Env) (st usePref : Bool) (ty : String)
    (attrs : List (String × PyVal)) : Except PyErr (List (String × PyVal)) :=
  flatRec fuel env ty st usePref (PyVal.ent ty attrs) (Option.some "")

/-- Whether a value is a Python dict. -/
def PyVal.isDict : PyVal → Bool
  | .dict _ => true
  | _ => false

/-- isinstance(v, cls) for an entity class. -/
def PyVal.isInstOf : PyVal → String → Bool
  | .ent ty _, cls => ty = cls
  | _, _ => false

/-- The fallback chain at the end of SingleObjectDescriptor.__init__ when
neither a factory nor a matching literal default was given: optional
attributes default to None; otherwise a nested class with required fields
gets _raise_no_default and one without gets _default_factory, which
constructs an empty instance. -/
def singleFallback (fuel : Nat) (env : Env) (cls : String) (optional : Bool) : DF :=
  if optional then fun _ => Except.ok PyVal.none
  else if hasRequiredFields env cls then
    fun _ => Except.error (PyErr.valueError "No default value or factory for field")
  else fun _ => importE fuel env cls []

/-- The default_factory SingleObjectDescriptor.__init__ resolves: a
callable default_factory wins; a literal default that is an instance of
the object class is wrapped into a constant factory; otherwise the
optional/required fallback chain applies. -/
def singleDF (fuel : Nat) (env : Env) (cls : String) (default : Option PyVal)
    (factory : Option DF) (optional : Bool) : DF :=
  match factory with
  | Option.some f => f
  | Option.none =>
    match default with
    | Option.some (PyVal.ent ty attrs) =>
      if ty = cls then fun _ => Except.ok (PyVal.ent ty attrs)
      else singleFallback fuel env cls optional
    | _ => singleFallback fuel env cls optional

/-- SingleObjectDescriptor.__init__: the resulting accessor policy. The
optional flag is consumed here only; __set__ never consults it. -/
def singleObjectInit (fuel : Nat) (env : Env) (cls : String)
    (default : Option PyVal) (factory : Option DF) (optional : Bool) : FieldKind :=
  FieldKind.single cls (singleDF fuel env cls default factory optional)

/-- The default source carried by a descriptor, when it is one. -/
def FieldKind.dfOf : FieldKind → Option DF
  | .plain _ _ => Option.none
  | .intStr df => Option.some df
  | .boolInt df => Option.some df
  | .strUuid df _ => Option.some df
  | .listInt df => Option.some df
  | .listUuid df _ => Option.some df
  | .strWrap _ df => Option.some df
  | .single _ df => Option.some df
  | .olist _ df => Option.some df
  | .omap _ df => Option.some df

/-- Whether the descriptor's __get__ caches its default into the instance
dict: only SingleObjectDescriptor stores on first read; every other
descriptor re-runs the factory on each read of an unset attribute. -/
def FieldKind.caches : FieldKind → Bool
  | .single _ _ => true
  | _ => false

/-- One __get__ call with its instance-side effects made explicit: the
result, the instance dict afterwards, and the number of default-factory
invocations this read performed. SingleObjectDescriptor tests membership
and stores the factory result on a miss (Python dict insertion appends
the new key); every other descriptor returns a stored non-None value and
otherwise runs the factory without storing anything; a plain field reads
the stored value or the class-level literal default. -/
def descGet (k : FieldKind) (name : String) (attrs : List (String × PyVal)) :
    Except PyErr PyVal × List (String × PyVal) × Nat :=
  match k with
  | .plain _ _ => (readAttr k name attrs, attrs, 0)
  | .single _ df =>
    match alookup attrs name with
    | Option.some v => (Except.ok v, attrs, 0)
    | Option.none =>
      match runDF df with
      | Except.ok d => (Except.ok d, attrs ++ [(name, d)], 1)
      | Except.error e => (Except.error e, attrs, 1)
  | .intStr df | .boolInt df | .strUuid df _ | .listInt df | .listUuid df _
  | .strWrap _ df | .olist _ df | .omap _ df =>
    match alookup attrs name with
    | Option.some v => if v.isNone then (runDF df, attrs, 1) else (Except.ok v, attrs, 0)
    | Option.none => (runDF df, attrs, 1)

/-- A heap of Python list objects, making object identity explicit for
the container-default aliasing claim: a reference is an index into the
heap, and two attribute reads alias exactly when they return the same
index. -/
structure ListHeap where
  cells : List (List PyVal)
  deriving Repr

def ListHeap.read (h : ListHeap) (r : Nat) : List PyVal := h.cells.getD r []

def ListHeap.write (h : ListHeap) (r : Nat) (l : List PyVal) : ListHeap :=
  ⟨h.cells.set r l⟩

def ListHeap.alloc (h : ListHeap) (l : List PyVal) : ListHeap × Nat :=
  (⟨h.cells ++ [l]⟩, h.cells.length)

/-- The default source ObjectListDescriptor.__init__ (and, identically,
MapObjectDescriptor.__init__) resolves for a literal container default,
at the level of object references: the source's lambda returning the
captured default hands out the same object on every call, while the
class's _default_factory builds a fresh empty container per call. -/
inductive ContainerDefault where
  | shared (r : Nat)
  | fresh

/-- ObjectListDescriptor.__init__ with isinstance(default, list) true
captures the one list object passed at class-definition time; with no
default and no factory it falls back to _default_factory. -/
def olistInitDefault (defaultRef : Option Nat) : ContainerDefault :=
  match defaultRef with
  | Option.some r => ContainerDefault.shared r
  | Option.none => ContainerDefault.fresh

/-- Running the resolved container default source once. -/
def runContainerDefault : ContainerDefault → ListHeap → Nat × ListHeap
  | ContainerDefault.shared r, h => (r, h)
  | ContainerDefault.fresh, h =>
    let p := h.alloc []
    (p.2, p.1)

/-- Reading a container attribute never set on the instance runs the
default source (per ObjectListDescriptor.__get__ on a missing key). -/
def olistGetUnset (d : ContainerDefault) (h : ListHeap) : Nat × ListHeap :=
  runContainerDefault d h

mutual

/-- Values free of entity instances and descriptor objects: the shapes an
external, JSON-like input mapping is made of. This is the formal reading
of the round-trip claim's canonical-form precondition on inputs. -/
def entFree : PyVal → Bool
  | .ent _ _ => false
  | .descr => false
  | .list xs => entFreeL xs
  | .dict xs => entFreeP xs
  | _ => true

def entFreeL : List PyVal → Bool
  | [] => true
  | x :: rest => entFree x && entFreeL rest

def entFreeP : List (String × PyVal) → Bool
  | [] => true
  | (_, x) :: rest => entFree x && entFreeP rest

end

/-- When None can legitimately sit in the instance dict of a plain field:
with a default factory, exactly when the factory itself produces None;
without one, exactly when the literal default is None (a required plain
field never stores None, since validation rejects such inputs). -/
def plainNoneOK (d : Option PyVal) (f : Option (Unit → PyVal)) : Prop :=
  match f with
  | Option.some fn => fn () = PyVal.none
  | Option.none => d = Option.some PyVal.none

mutual

/-- The invariant of values stored in an instance dict by the import
path, per accessor kind. These are the canonical forms each __set__
produces, and the forms on which export followed by re-import is exact. -/
inductive CanonV (env : Env) : FieldKind → PyVal → Prop where
  | plainV (d : Option PyVal) (f : Option (Unit → PyVal)) (v : PyVal)
      (hfree : entFree v = true) (hnone : v = PyVal.none → plainNoneOK d f) :
      CanonV env (.plain d f) v
  | intV (df : DF) (n : Int) : CanonV env (.intStr df) (.int n)
  | boolV (df : DF) (n : Int) (h : n = 0 ∨ n = 1) : CanonV env (.boolInt df) (.int n)
  | uuidV (df : DF) (roe : Bool) (u : Nat) : CanonV env (.strUuid df roe) (.uuid u)
  | listIntV (df : DF) (xs : List PyVal) (h : ∀ x ∈ xs, ∃ n, x = PyVal.int n) :
      CanonV env (.listInt df) (.list xs)
  | listUuidV (df : DF) (roe : Bool) (xs : List PyVal)
      (h : ∀ x ∈ xs, ∃ u, x = PyVal.uuid u) : CanonV env (.listUuid df roe) (.list xs)
  | wrapV (cls : String) (df : DF) (sv : Option String) :
      CanonV env (.strWrap cls df) (.wrap cls sv)
  | singleNoneV (cls : String) (df : DF) (h : runDF df = Except.ok PyVal.none) :
      CanonV env (.single cls df) PyVal.none
  | singleEntV (cls : String) (df : DF) (v : PyVal) (h : CanonEnt env cls v) :
      CanonV env (.single cls df) v
  | olistV (cls : String) (df : DF) (xs : List PyVal) (h : CanonList env cls xs) :
      CanonV env (.olist cls df) (.list xs)
  | omapV (cls : String) (df : DF) (kvs : List (String × PyVal))
      (h : CanonPairs env cls kvs) : CanonV env (.omap cls df) (.dict kvs)

/-- A fully populated canonical entity: its class resolves, and its
instance dict holds exactly the declared attributes in declaration
order, each value canonical for its accessor. -/
inductive CanonEnt (env : Env) : String → PyVal → Prop where
  | mk (ty : String) (T : EntityType) (attrs : List (String × PyVal))
      (hT : lookupTy env ty = Option.some T) (hf : CanonFields env T.fields attrs) :
      CanonEnt env ty (PyVal.ent ty attrs)

/-- Pointwise canonicity of an instance dict against a field list. -/
inductive CanonFields (env : Env) :
    List (String × FieldKind) → List (String × PyVal) → Prop where
  | nil : CanonFields env [] []
  | cons (name : String) (k : FieldKind) (v : PyVal) (fs : List (String × FieldKind))
      (avs : List (String × PyVal)) (hv : CanonV env k v)
      (hrest : CanonFields env fs avs) :
      CanonFields env ((name, k) :: fs) ((name, v) :: avs)

/-- Every element a canonical entity of the class. -/
inductive CanonList (env : Env) : String → List PyVal → Prop where
  | nil (cls : String) : CanonList env cls []
  | cons (cls : String) (x : PyVal) (xs : List PyVal) (hx : CanonEnt env cls x)
      (hrest : CanonList env cls xs) : CanonList env cls (x :: xs)

/-- Every mapped value a canonical entity of the class. -/
inductive CanonPairs (env : Env) : String → List (String × PyVal) → Prop where
  | nil (cls : String) : CanonPairs env cls []
  | cons (cls : String) (key : String) (x : PyVal) (xs : List (String × PyVal))
      (hx : CanonEnt env cls x) (hrest : CanonPairs env cls xs) :
      CanonPairs env cls ((key, x) :: xs)

end

/-- A sane default source: whenever it returns a value rather than
raising, that value is canonical for its accessor (a user factory
returning a value of the wrong shape voids the round-trip property). -/
def DFCanon (env : Env) (k : FieldKind) : Prop :=
  match k.dfOf with
  | Option.some df => ∀ v, runDF df = Except.ok v → CanonV env k v
  | Option.none => True

/-- Sanity of a plain field's default sources: they produce external,
entity-free values. -/
def WFPlain (d : Option PyVal) (f : Option (Unit → PyVal)) : Prop :=
  (∀ fn, f = Option.some fn → entFree (fn ()) = true) ∧
  (∀ dv, d = Option.some dv → entFree dv = true)

/-- Well-formedness of one accessor. -/
def WFKind (env : Env) (k : FieldKind) : Prop :=
  match k with
  | .plain d f => WFPlain d f
  | _ => DFCanon env k

/-- Well-formedness of an entity class: distinct attribute names, at
least one declared attribute, and well-formed accessors. (A class with
no attributes at all exports to an empty — hence falsy — dict, which the
single-object setter routes to the default source; the round-trip
counterexample below exploits exactly that, so the round-trip theorem
assumes classes declare at least one attribute.) -/
def WFTy (env : Env) (T : EntityType) : Prop :=
  (T.fields.map Prod.fst).Nodup ∧ T.fields ≠ [] ∧ ∀ p ∈ T.fields, WFKind env p.2

/-- Well-formedness of the class environment. -/
def WFEnv (env : Env) : Prop :=
  ∀ ty T, lookupTy env ty = Option.some T → WFTy env T

/-- A default source producing the integer zero (used by concrete
instantiations below). -/
def dfInt0 : DF := fun _ => Except.ok (PyVal.int 0)

/-- A default source producing None, as SingleObjectDescriptor resolves
for optional attributes. -/
def dfNone : DF := fun _ => Except.ok PyVal.none

/-- A default source producing the nil UUID. -/
def dfUuid0 : DF := fun _ => Except.ok (PyVal.uuid 0)

/-- Environment of the import-failure-mode counterexample: class T1 has a
single-object attribute of class C1, and C1 requires a name. -/
def envSingleReq : Env :=
  [("T1", ⟨[("child", FieldKind.single "C1" dfNone)], false⟩),
   ("C1", ⟨[("name", FieldKind.plain Option.none Option.none)], false⟩)]

/-- Environment of the round-trip counterexample: class T3 has an
optional single-object attribute whose class C0 declares no attributes
at all, so a constructed C0 instance exports to the falsy empty dict. -/
def envRound : Env :=
  [("T3", ⟨[("child", FieldKind.single "C0" dfNone)], false⟩),
   ("C0", ⟨[], false⟩)]

/-- Environment of the flat-export examples: T7 holds a nested Ch entity
under attribute a, and Ch holds an integer b and an integer list c;
neither class has its own to_json. -/
def envFlat : Env :=
  [("T7", ⟨[("a", FieldKind.single "Ch" dfNone)], false⟩),
   ("Ch", ⟨[("b", FieldKind.intStr dfInt0), ("c", FieldKind.listInt dfInt0)], false⟩)]

/-- The instance dict of the flat-export example entity, the entity
written a: (b: 1, c: [10, 20]) in the spec. -/
def attrsFlat : List (String × PyVal) :=
  [("a", PyVal.ent "Ch" [("b", PyVal.int 1), ("c", PyVal.list [PyVal.int 10, PyVal.int 20])])]

/-- A well-formed two-class environment used to witness the round-trip
theorem: P holds an integer x and an optional single-object child of
class Q, which holds an integer y. -/
def envWF : Env :=
  [("P", ⟨[("x", FieldKind.intStr dfInt0), ("child", FieldKind.single "Q" dfNone)], false⟩),
   ("Q", ⟨[("y", FieldKind.intStr dfInt0)], false⟩)]

/-! ## Helper lemmas -/

theorem alookup_append_of_none (attrs : List (String × PyVal)) (name : String)
    (d : PyVal) (h : alookup attrs name = Option.none) :
    alookup (attrs ++ [(name, d)]) name = Option.some d := by
  induction attrs with
  | nil => simp [alookup]
  | cons hd tl ih =>
    obtain ⟨k, v⟩ := hd
    by_cases hk : k = name
    · simp [alookup, hk] at h
    · simp [alookup, hk] at h ⊢
      exact ih h

theorem alookup_some_imp_mem_keys (r : List (String × PyVal)) (key : String)
    (w : PyVal) (h : alookup r key = Option.some w) : key ∈ r.map Prod.fst := by
  induction r with
  | nil => simp [alookup] at h
  | cons hd tl ih =>
    obtain ⟨k, v⟩ := hd
    by_cases hk : k = key
    · simp [hk]
    · simp [alookup, hk] at h
      simp [ih h]

theorem mem_keyed_nodup_unique (m : List (String × PyVal)) (key : String)
    (a b : PyVal) (hnd : (m.map Prod.fst).Nodup) (ha : (key, a) ∈ m)
    (hb : (key, b) ∈ m) : a = b := by
  induction m with
  | nil => simp at ha
  | cons hd tl ih =>
    obtain ⟨k, v⟩ := hd
    simp at hnd
    rcases List.mem_cons.mp ha with h1 | h1
    · rcases List.mem_cons.mp hb with h2 | h2
      · rw [Prod.mk.injEq] at h1 h2
        exact h1.2.trans h2.2.symm
      · exfalso
        rw [Prod.mk.injEq] at h1
        exact hnd.1 b (h1.1 ▸ h2)
    · rcases List.mem_cons.mp hb with h2 | h2
      · exfalso
        rw [Prod.mk.injEq] at h2
        exact hnd.1 a (h2.1 ▸ h1)
      · exact ih hnd.2 h1 h2

theorem listUuidConv_false_ok (xs : List PyVal) :
    ∃ ys, listUuidConv false xs = Except.ok ys := by
  induction xs with
  | nil => exact ⟨[], rfl⟩
  | cons x rest ih =>
    obtain ⟨ys, hys⟩ := ih
    cases x with
    | uuid u => exact ⟨PyVal.uuid u :: ys, by simp [listUuidConv, hys]⟩
    | _ =>
      simp only [listUuidConv]
      split
      · next u heq => exact ⟨PyVal.uuid u :: ys, by rw [hys]⟩
      · exact ⟨ys, hys⟩

theorem importFields_names (env : Env) :
    ∀ (fs : List (String × FieldKind)) (fuel : Nat) (m attrs : List (String × PyVal)),
      importFields fuel env m fs = Except.ok attrs →
      attrs.map Prod.fst = fs.map Prod.fst := by
  intro fs
  induction fs with
  | nil =>
    intro fuel m attrs h
    cases fuel with
    | zero => simp [importFields] at h
    | succ f =>
      simp only [importFields] at h
      rw [Except.ok.injEq] at h
      simp [← h]
  | cons hd tl ih =>
    intro fuel m attrs h
    obtain ⟨name, k⟩ := hd
    cases fuel with
    | zero => simp [importFields] at h
    | succ f =>
      simp only [importFields] at h
      cases hv : importFieldVal f env m name k with
      | error e => rw [hv] at h; simp at h
      | ok v =>
        rw [hv] at h
        cases hr : importFields f env m tl with
        | error e => rw [hr] at h; simp at h
        | ok rest2 =>
          rw [hr] at h
          rw [Except.ok.injEq] at h
          simp [← h, ih f m rest2 hr]

theorem importFields_mem (env : Env) :
    ∀ (fs : List (String × FieldKind)) (fuel : Nat) (m attrs : List (String × PyVal))
      (name : String) (k : FieldKind),
      importFields fuel env m fs = Except.ok attrs → (name, k) ∈ fs →
      (fs.map Prod.fst).Nodup →
      ∃ f2 v, importFieldVal f2 env m name k = Except.ok v ∧
        alookup attrs name = Option.some v := by
  intro fs
  induction fs with
  | nil =>
    intro fuel m attrs name k _ hmem
    simp at hmem
  | cons hd tl ih =>
    intro fuel m attrs name k h hmem hnd
    obtain ⟨n0, k0⟩ := hd
    cases fuel with
    | zero => simp [importFields] at h
    | succ f =>
      simp only [importFields] at h
      cases hv : importFieldVal f env m n0 k0 with
      | error e => rw [hv] at h; simp at h
      | ok v =>
        rw [hv] at h
        cases hr : importFields f env m tl with
        | error e => rw [hr] at h; simp at h
        | ok rest2 =>
          rw [hr] at h
          rw [Except.ok.injEq] at h
          rcases List.mem_cons.mp hmem with h1 | h1
          · rw [Prod.mk.injEq] at h1
            refine ⟨f, v, ?_, ?_⟩
            · rw [h1.1, h1.2]
              exact hv
            · rw [← h, h1.1]
              simp [alookup]
          · simp at hnd
            have hne : n0 ≠ name := by
              intro he
              exact hnd.1 k (he ▸ h1)
            obtain ⟨f2, v2, hval, hlook⟩ := ih f m rest2 name k hr h1 hnd.2
            refine ⟨f2, v2, hval, ?_⟩
            rw [← h]
            simp [alookup, hne, hlook]

theorem omapConv_keys (env : Env) (cls : String) :
    ∀ (m : List (String × PyVal)) (fuel : Nat) (r : List (String × PyVal)),
      omapConv fuel env cls m = Except.ok r →
      ∀ key, key ∈ r.map Prod.fst →
        ∃ x, (key, x) ∈ m ∧ (x.isInstOf cls = true ∨ x.isDict = true) := by
  intro m
  induction m with
  | nil =>
    intro fuel r h key hk
    cases fuel with
    | zero => simp [omapConv] at h
    | succ f =>
      simp only [omapConv] at h
      rw [Except.ok.injEq] at h
      rw [← h] at hk
      simp at hk
  | cons hd tl ih =>
    intro fuel r h key hk
    obtain ⟨k0, x0⟩ := hd
    cases fuel with
    | zero => simp [omapConv] at h
    | succ f =>
      cases x0 with
      | ent ty attrs =>
        replace h : (if ty = cls then
            match omapConv f env cls tl with
            | Except.error e => Except.error e
            | Except.ok ys => Except.ok ((k0, PyVal.ent ty attrs) :: ys)
          else omapConv f env cls tl) = Except.ok r := h
        by_cases hty : ty = cls
        · rw [if_pos hty] at h
          cases hr : omapConv f env cls tl with
          | error e => rw [hr] at h; simp at h
          | ok ys =>
            rw [hr] at h
            rw [Except.ok.injEq] at h
            rw [← h] at hk
            simp at hk
            rcases hk with hk | hk
            · exact ⟨PyVal.ent ty attrs, by rw [hk]; exact List.mem_cons_self .., by
                simp [PyVal.isInstOf, hty]⟩
            · obtain ⟨x, hx, good⟩ := ih f ys hr key (by simpa using hk)
              exact ⟨x, List.mem_cons_of_mem _ hx, good⟩
        · rw [if_neg hty] at h
          obtain ⟨x, hx, good⟩ := ih f r h key hk
          exact ⟨x, List.mem_cons_of_mem _ hx, good⟩
      | dict kw =>
        replace h : (match importE f env cls kw with
          | Except.error e => Except.error e
          | Except.ok y =>
            match omapConv f env cls tl with
            | Except.error e => Except.error e
            | Except.ok ys => Except.ok ((k0, y) :: ys)) = Except.ok r := h
        cases hi : importE f env cls kw with
        | error e => rw [hi] at h; simp at h
        | ok y =>
          rw [hi] at h
          cases hr : omapConv f env cls tl with
          | error e => rw [hr] at h; simp at h
          | ok ys =>
            rw [hr] at h
            rw [Except.ok.injEq] at h
            rw [← h] at hk
            simp at hk
            rcases hk with hk | hk
            · exact ⟨PyVal.dict kw, by simp [hk], Or.inr rfl⟩
            · obtain ⟨x, hx, good⟩ := ih f ys hr key (by simpa using hk)
              exact ⟨x, List.mem_cons_of_mem _ hx, good⟩
      | none =>
        replace h : omapConv f env cls tl = Except.ok r := h
        obtain ⟨x, hx, good⟩ := ih f r h key hk
        exact ⟨x, List.mem_cons_of_mem _ hx, good⟩
      | bool b =>
        replace h : omapConv f env cls tl = Except.ok r := h
        obtain ⟨x, hx, good⟩ := ih f r h key hk
        exact ⟨x, List.mem_cons_of_mem _ hx, good⟩
      | int n =>
        replace h : omapConv f env cls tl = Except.ok r := h
        obtain ⟨x, hx, good⟩ := ih f r h key hk
        exact ⟨x, List.mem_cons_of_mem _ hx, good⟩
      | float q =>
        replace h : omapConv f env cls tl = Except.ok r := h
        obtain ⟨x, hx, good⟩ := ih f r h key hk
        exact ⟨x, List.mem_cons_of_mem _ hx, good⟩
      | str s =>
        replace h : omapConv f env cls tl = Except.ok r := h
        obtain ⟨x, hx, good⟩ := ih f r h key hk
        exact ⟨x, List.mem_cons_of_mem _ hx, good⟩
      | uuid u =>
        replace h : omapConv f env cls tl = Except.ok r := h
        obtain ⟨x, hx, good⟩ := ih f r h key hk
        exact ⟨x, List.mem_cons_of_mem _ hx, good⟩
      | list xs =>
        replace h : omapConv f env cls tl = Except.ok r := h
        obtain ⟨x, hx, good⟩ := ih f r h key hk
        exact ⟨x, List.mem_cons_of_mem _ hx, good⟩
      | wrap c sv =>
        replace h : omapConv f env cls tl = Except.ok r := h
        obtain ⟨x, hx, good⟩ := ih f r h key hk
        exact ⟨x, List.mem_cons_of_mem _ hx, good⟩
      | descr =>
        replace h : omapConv f env cls tl = Except.ok r := h
        obtain ⟨x, hx, good⟩ := ih f r h key hk
        exact ⟨x, List.mem_cons_of_mem _ hx, good⟩

theorem importE_succ_some (fuel : Nat) (env : Env) (ty : String)
    (m : List (String × PyVal)) (T : EntityType)
    (hT : lookupTy env ty = Option.some T) :
    importE (Nat.succ fuel) env ty m =
      (if requiredMissing T m = [] then
        match importFields fuel env m T.fields with
        | Except.ok attrs => Except.ok (PyVal.ent ty attrs)
        | Except.error e => Except.error e
      else Except.error (PyErr.missingRequiredFields (requiredMissing T m))) := by
  simp only [importE]
  rw [hT]

/-! ## Claim theorems -/

/-- C6: on the well-formed example graph, nested export and flat export
with key paths return results, and leaves outside the closure (a UUID
here) pass through as-is or stringified; but flat export with key paths
disabled raises AttributeError at the first scalar leaf, because the
traversal passes a None prefix down and calls rstrip on it — export is
not raise-free as the claim states. -/
theorem export_behavior_on_well_formed_graph :
    toJsonE 9 envFlat false "T7" attrsFlat =
      Except.ok (PyVal.dict [("a", PyVal.dict
        [("b", PyVal.int 1), ("c", PyVal.list [PyVal.int 10, PyVal.int 20])])]) ∧
    flatToJson 9 envFlat false true "T7" attrsFlat =
      Except.ok [("a.b", PyVal.int 1), ("a.c[0]", PyVal.int 10),
        ("a.c[1]", PyVal.int 20)] ∧
    flatToJson 9 envFlat false false "T7" attrsFlat =
      Except.error (PyErr.attributeError "NoneType object has no attribute rstrip") ∧
    exportRec 1 [] "X" false (PyVal.uuid 7) = Except.ok (PyVal.uuid 7) ∧
    exportRec 1 [] "X" true (PyVal.uuid 7) = Except.ok (PyVal.str (pyStr (PyVal.uuid 7))) :=
  ⟨rfl, rfl, rfl, rfl, rfl⟩

/-- C7: flat export of the entity a: (b: 1, c: [10, 20]) with key paths
enabled yields exactly the claimed dotted and bracket-indexed keys; with
key paths disabled it does not return the leaf-keyed mapping the claim
states but raises AttributeError (None prefix at a scalar leaf). -/
theorem flat_export_key_path_rendering :
    flatToJson 9 envFlat false true "T7" attrsFlat =
      Except.ok [("a.b", PyVal.int 1), ("a.c[0]", PyVal.int 10),
        ("a.c[1]", PyVal.int 20)] ∧
    flatToJson 9 envFlat false false "T7" attrsFlat =
      Except.error (PyErr.attributeError "NoneType object has no attribute rstrip") :=
  ⟨rfl, rfl⟩

/-- C8: the lambda-captured literal default of ObjectListDescriptor hands
out the same list object to every entity that never set the attribute:
two reads return the same reference without touching the heap, and a
mutation through the first entity's reference is visible through the
second entity's reference — whereas the no-default fallback factory
allocates a fresh list per read. -/
theorem shared_list_default_aliasing :
    (olistGetUnset (olistInitDefault (Option.some 0)) ⟨[[PyVal.int 1]]⟩).1 =
      (olistGetUnset (olistInitDefault (Option.some 0))
        (olistGetUnset (olistInitDefault (Option.some 0)) ⟨[[PyVal.int 1]]⟩).2).1 ∧
    (olistGetUnset (olistInitDefault (Option.some 0)) ⟨[[PyVal.int 1]]⟩).2 =
      (⟨[[PyVal.int 1]]⟩ : ListHeap) ∧
    ListHeap.read
      (ListHeap.write ⟨[[PyVal.int 1]]⟩
        (olistGetUnset (olistInitDefault (Option.some 0)) ⟨[[PyVal.int 1]]⟩).1
        (ListHeap.read ⟨[[PyVal.int 1]]⟩
          (olistGetUnset (olistInitDefault (Option.some 0)) ⟨[[PyVal.int 1]]⟩).1 ++
          [PyVal.int 2]))
      (olistGetUnset (olistInitDefault (Option.some 0))
        (olistGetUnset (olistInitDefault (Option.some 0)) ⟨[[PyVal.int 1]]⟩).2).1 =
      [PyVal.int 1, PyVal.int 2] ∧
    (olistGetUnset (olistInitDefault Option.none) ⟨[[PyVal.int 1]]⟩).1 ≠
      (olistGetUnset (olistInitDefault Option.none)
        (olistGetUnset (olistInitDefault Option.none) ⟨[[PyVal.int 1]]⟩).2).1 :=
  ⟨rfl, rfl, rfl, by decide⟩

/-- C1 counterexample: importing a truthy non-mapping, non-instance value
into a single-object attribute makes import fail with a ValueError, not
with MissingRequiredFieldsError — so import has failure modes beyond the
one the claim allows. -/
theorem import_fails_with_value_error :
    importE 9 envSingleReq "T1" [("child", PyVal.int 5)] =
      Except.error (PyErr.valueError "Value must be a dict or a C1 instance") := rfl

/-- C2 counterexample: a non-strict identifier accessor raises a plain
Exception on an unsupported value kind (an int here), and a non-strict
integer accessor whose default source is the raise-if-missing marker
raises on None input — non-strict writes are not raise-free. -/
theorem nonstrict_write_raises :
    setField 1 [] (FieldKind.strUuid dfUuid0 false) (PyVal.int 1) =
      Except.error (PyErr.exception "Unsupported type 1") ∧
    setField 1 [] (FieldKind.intStr raiseOnValueMissed) PyVal.none =
      Except.error (PyErr.valueError "Value have no default value and must be set") :=
  ⟨rfl, rfl⟩

/-- C5 counterexample: MapObjectDescriptor.__set__ given a mapping whose
value is neither an instance nor a mapping drops the key instead of
passing the value through. -/
theorem map_set_drops_concrete :
    setField 9 [] (FieldKind.omap "C" dfInt0) (PyVal.dict [("k", PyVal.int 5)]) =
      Except.ok (PyVal.dict []) ∧
    setField 9 [] (FieldKind.omap "C" dfInt0) (PyVal.dict [("k", PyVal.int 5)]) ≠
      Except.ok (PyVal.dict [("k", PyVal.int 5)]) := by
  refine ⟨rfl, ?_⟩
  intro h
  rw [show setField 9 [] (FieldKind.omap "C" dfInt0) (PyVal.dict [("k", PyVal.int 5)]) =
    Except.ok (PyVal.dict []) from rfl] at h
  simp at h

/-- C9 counterexample: SingleObjectDescriptor.__set__ raises on a truthy
non-mapping non-instance value even when the attribute was declared
optional (and the error is a ValueError, not a TypeError-class error). -/
theorem single_set_raises_despite_optional :
    setField 9 [] (singleObjectInit 0 [] "C" Option.none Option.none true) (PyVal.int 5) =
      Except.error (PyErr.valueError "Value must be a dict or a C instance") := rfl

/-- C1 (amended): when any declared attribute with neither default nor
factory is absent or None, import fails — before any attribute is
assigned — with MissingRequiredFieldsError enumerating every such
attribute name; and a successful import returns an entity populated at
exactly the declared attributes. (Import may still fail with other
errors raised later, during attribute assignment, as the counterexample
shows.) -/
theorem import_validation_and_population (fuel : Nat) (env : Env) (ty : String)
    (T : EntityType) (m : List (String × PyVal))
    (hT : lookupTy env ty = Option.some T) :
    (requiredMissing T m ≠ [] →
      importE (fuel + 1) env ty m =
        Except.error (PyErr.missingRequiredFields (requiredMissing T m))) ∧
    (∀ e, importE (fuel + 1) env ty m = Except.ok e →
      ∃ attrs, e = PyVal.ent ty attrs ∧
        attrs.map Prod.fst = T.fields.map Prod.fst) := by
  constructor
  · intro hne
    rw [importE_succ_some fuel env ty m T hT, if_neg hne]
  · intro e h
    rw [importE_succ_some fuel env ty m T hT] at h
    by_cases hmiss : requiredMissing T m = []
    · rw [if_pos hmiss] at h
      cases hf : importFields fuel env m T.fields with
      | error e2 => rw [hf] at h; simp at h
      | ok attrs0 =>
        rw [hf] at h
        rw [Except.ok.injEq] at h
        exact ⟨attrs0, h.symm, importFields_names env T.fields fuel m attrs0 hf⟩
    · rw [if_neg hmiss] at h
      simp at h

/-- Witness for the amended C1: the required-name class rejects the empty
input listing the missing name, and a complete input imports into an
entity populated at exactly the declared attribute. -/
theorem import_validation_witness :
    importE 1 envSingleReq "C1" [] =
      Except.error (PyErr.missingRequiredFields ["name"]) ∧
    (∃ attrs, PyVal.ent "C1" [("name", PyVal.str "x")] = PyVal.ent "C1" attrs ∧
      attrs.map Prod.fst =
        (⟨[("name", FieldKind.plain Option.none Option.none)], false⟩ :
          EntityType).fields.map Prod.fst) :=
  ⟨(import_validation_and_population 0 envSingleReq "C1"
      ⟨[("name", FieldKind.plain Option.none Option.none)], false⟩ [] rfl).1
      (by decide),
   (import_validation_and_population 8 envSingleReq "C1"
      ⟨[("name", FieldKind.plain Option.none Option.none)], false⟩
      [("name", PyVal.str "x")] rfl).2 _ rfl⟩

/-- C4: during import, a field governed by an ObjectFieldDescriptor
receives through the descriptor's write path the entire input mapping
when its own key is absent, and exactly the key's value when present;
the stored attribute is the result of that write. -/
theorem model_field_import_arg (fuel : Nat) (env : Env) (ty : String)
    (T : EntityType) (m attrs : List (String × PyVal)) (name : String)
    (k : FieldKind) (hT : lookupTy env ty = Option.some T)
    (hmem : (name, k) ∈ T.fields) (hmodel : k.isModel = true)
    (hnd : (T.fields.map Prod.fst).Nodup)
    (hok : importE fuel env ty m = Except.ok (PyVal.ent ty attrs)) :
    ∃ v f2, alookup attrs name = Option.some v ∧
      setField f2 env k (importArg name m) = Except.ok v ∧
      (alookup m name = Option.none →
        setField f2 env k (PyVal.dict m) = Except.ok v) ∧
      ∀ w, alookup m name = Option.some w → setField f2 env k w = Except.ok v := by
  cases fuel with
  | zero => simp [importE] at hok
  | succ f =>
    rw [importE_succ_some f env ty m T hT] at hok
    by_cases hmiss : requiredMissing T m = []
    · rw [if_pos hmiss] at hok
      cases hf : importFields f env m T.fields with
      | error e2 => rw [hf] at hok; simp at hok
      | ok attrs0 =>
        rw [hf] at hok
        rw [Except.ok.injEq, PyVal.ent.injEq] at hok
        obtain ⟨f2, v, hval, hlook⟩ :=
          importFields_mem env T.fields f m attrs0 name k hf hmem hnd
        cases f2 with
        | zero => simp [importFieldVal] at hval
        | succ f3 =>
          have hset : setField f3 env k (importArg name m) = Except.ok v := by
            cases k with
            | single cls df => exact hval
            | olist cls df => exact hval
            | omap cls df => exact hval
            | _ => simp [FieldKind.isModel] at hmodel
          refine ⟨v, f3, ?_, hset, ?_, ?_⟩
          · rw [← hok.2]
            exact hlook
          · intro habs
            have : importArg name m = PyVal.dict m := by
              simp [importArg, habs]
            rw [← this]
            exact hset
          · intro w hw
            have : importArg name m = w := by
              simp [importArg, hw]
            rw [← this]
            exact hset
    · rw [if_neg hmiss] at hok
      simp at hok

/-- Witness for C4: importing into T7 with the nested key present passes
only that key's value to the single-object accessor, and the stored
child is the entity that write constructed. -/
theorem model_field_import_arg_witness :
    ∃ v f2,
      alookup [("a", PyVal.ent "Ch" [("b", PyVal.int 3), ("c", PyVal.list [])])] "a" =
        Option.some v ∧
      setField f2 envFlat (FieldKind.single "Ch" dfNone)
        (importArg "a" [("a", PyVal.dict [("b", PyVal.int 3), ("c", PyVal.list [])])]) =
        Except.ok v ∧
      (alookup [("a", PyVal.dict [("b", PyVal.int 3), ("c", PyVal.list [])])] "a" =
          Option.none →
        setField f2 envFlat (FieldKind.single "Ch" dfNone)
          (PyVal.dict [("a", PyVal.dict [("b", PyVal.int 3), ("c", PyVal.list [])])]) =
          Except.ok v) ∧
      ∀ w, alookup [("a", PyVal.dict [("b", PyVal.int 3), ("c", PyVal.list [])])] "a" =
          Option.some w →
        setField f2 envFlat (FieldKind.single "Ch" dfNone) w = Except.ok v :=
  model_field_import_arg 9 envFlat "T7" ⟨[("a", FieldKind.single "Ch" dfNone)], false⟩
    [("a", PyVal.dict [("b", PyVal.int 3), ("c", PyVal.list [])])]
    [("a", PyVal.ent "Ch" [("b", PyVal.int 3), ("c", PyVal.list [])])]
    "a" (FieldKind.single "Ch" dfNone) rfl (List.Mem.head _) rfl (by simp) rfl

/-- C2 (amended): with a default source that returns a value, a
non-strict scalar write falls back to it silently on malformed input of
a supported raw form, never raising — except that the integer accessor
propagates an OverflowError on strings parsing to an infinite float, the
string-wrapper accessor raises when handed a non-empty mapping (the base
wrapper constructor takes no keyword arguments), and the identifier
accessor, covered here only on its supported forms (falsy values,
strings, identifiers, and the descriptor object), raises on anything
else as the counterexample shows. -/
theorem nonstrict_set_fallback (env : Env) (fuel : Nat) (df : DF) (d : PyVal)
    (hdf : runDF df = Except.ok d) :
    (∀ v, (∀ s, v = PyVal.str s →
        Parse.pyFloat s ≠ Option.some PFloat.inf ∧
        Parse.pyFloat s ≠ Option.some PFloat.neginf) →
      ∃ w, setField (fuel + 1) env (FieldKind.intStr df) v = Except.ok w) ∧
    (∀ v, ∃ w, setField (fuel + 1) env (FieldKind.boolInt df) v = Except.ok w) ∧
    (∀ v, ∃ w, setField (fuel + 1) env (FieldKind.listInt df) v = Except.ok w) ∧
    (∀ v, ∃ w, setField (fuel + 1) env (FieldKind.listUuid df false) v = Except.ok w) ∧
    (∀ cls v, (∀ kw, v = PyVal.dict kw → kw = []) →
      ∃ w, setField (fuel + 1) env (FieldKind.strWrap cls df) v = Except.ok w) ∧
    (∀ v, (pyTruthy v = false ∨ (∃ s, v = PyVal.str s) ∨ (∃ u, v = PyVal.uuid u) ∨
        v = PyVal.descr) →
      ∃ w, setField (fuel + 1) env (FieldKind.strUuid df false) v = Except.ok w) := by
  refine ⟨?_, ?_, ?_, ?_, ?_, ?_⟩
  · intro v hinf
    cases v with
    | str s =>
      have hred : setField (fuel + 1) env (FieldKind.intStr df) (PyVal.str s) =
          (if s = "" then runDF df
           else match Parse.pyFloat s with
             | Option.some (PFloat.finite q) => Except.ok (PyVal.int (ratTrunc q))
             | Option.some PFloat.inf =>
               Except.error (PyErr.overflowError "cannot convert float infinity to integer")
             | Option.some PFloat.neginf =>
               Except.error (PyErr.overflowError "cannot convert float infinity to integer")
             | Option.some PFloat.nan => runDF df
             | Option.none => runDF df) := rfl
      by_cases hs : s = ""
      · exact ⟨d, by rw [hred, if_pos hs]; exact hdf⟩
      · rw [hred, if_neg hs]
        cases hp : Parse.pyFloat s with
        | none => exact ⟨d, hdf⟩
        | some pf =>
          cases pf with
          | finite q => exact ⟨PyVal.int (ratTrunc q), rfl⟩
          | inf => exact absurd hp (hinf s rfl).1
          | neginf => exact absurd hp (hinf s rfl).2
          | nan => exact ⟨d, hdf⟩
    | none => exact ⟨d, hdf⟩
    | bool b => exact ⟨PyVal.int (if b then 1 else 0), rfl⟩
    | int n => exact ⟨PyVal.int n, rfl⟩
    | float q => exact ⟨PyVal.int (ratTrunc q), rfl⟩
    | uuid u => exact ⟨d, hdf⟩
    | list xs => exact ⟨d, hdf⟩
    | dict xs => exact ⟨d, hdf⟩
    | ent ty a => exact ⟨d, hdf⟩
    | wrap c sv => exact ⟨d, hdf⟩
    | descr => exact ⟨d, hdf⟩
  · intro v
    cases v with
    | none => exact ⟨d, hdf⟩
    | bool b => exact ⟨PyVal.int (if b then 1 else 0), rfl⟩
    | int n => exact ⟨PyVal.int (if n ≠ 0 then 1 else 0), rfl⟩
    | _ => exact ⟨d, hdf⟩
  · intro v
    cases v with
    | list xs => exact ⟨PyVal.list (xs.filterMap pyIntOf), rfl⟩
    | _ => exact ⟨d, hdf⟩
  · intro v
    cases v with
    | none => exact ⟨d, hdf⟩
    | list xs =>
      obtain ⟨ys, hys⟩ := listUuidConv_false_ok xs
      refine ⟨PyVal.list ys, ?_⟩
      have hred : setField (fuel + 1) env (FieldKind.listUuid df false) (PyVal.list xs) =
          (match listUuidConv false xs with
           | Except.ok ys => Except.ok (PyVal.list ys)
           | Except.error e => Except.error e) := rfl
      rw [hred, hys]
    | _ => exact ⟨d, hdf⟩
  · intro cls v hkw
    cases v with
    | none => exact ⟨d, hdf⟩
    | bool b =>
      cases b with
      | false => exact ⟨d, hdf⟩
      | true => exact ⟨PyVal.wrap cls (Option.some (pyStr (PyVal.bool true))), rfl⟩
    | wrap c sv =>
      have hred : setField (fuel + 1) env (FieldKind.strWrap cls df) (PyVal.wrap c sv) =
          (if c = cls then Except.ok (PyVal.wrap c sv)
           else Except.ok (PyVal.wrap cls (Option.some (pyStr (PyVal.wrap c sv))))) := rfl
      rw [hred]
      by_cases hc : c = cls
      · rw [if_pos hc]; exact ⟨PyVal.wrap c sv, rfl⟩
      · rw [if_neg hc]
        exact ⟨PyVal.wrap cls (Option.some (pyStr (PyVal.wrap c sv))), rfl⟩
    | dict kw =>
      have h0 := hkw kw rfl
      subst h0
      exact ⟨PyVal.wrap cls Option.none, rfl⟩
    | int n => exact ⟨PyVal.wrap cls (Option.some (pyStr (PyVal.int n))), rfl⟩
    | float q => exact ⟨PyVal.wrap cls (Option.some (pyStr (PyVal.float q))), rfl⟩
    | str s => exact ⟨PyVal.wrap cls (Option.some (pyStr (PyVal.str s))), rfl⟩
    | uuid u => exact ⟨PyVal.wrap cls (Option.some (pyStr (PyVal.uuid u))), rfl⟩
    | list xs => exact ⟨PyVal.wrap cls (Option.some (pyStr (PyVal.list xs))), rfl⟩
    | ent ty a => exact ⟨PyVal.wrap cls (Option.some (pyStr (PyVal.ent ty a))), rfl⟩
    | descr => exact ⟨PyVal.wrap cls (Option.some (pyStr PyVal.descr)), rfl⟩
  · intro v hsup
    have hred : ∀ x, setField (fuel + 1) env (FieldKind.strUuid df false) x =
        (if ¬ pyTruthy x then runDF df
         else match x with
           | PyVal.uuid u => Except.ok (PyVal.uuid u)
           | PyVal.str s =>
             match Parse.pyUuid s with
             | Option.some u => Except.ok (PyVal.uuid u)
             | Option.none => runDF df
           | PyVal.descr => runDF df
           | other => Except.error (PyErr.exception ("Unsupported type " ++ pyStr other))) :=
      fun x => rfl
    rcases hsup with hfal | ⟨s, rfl⟩ | ⟨u, rfl⟩ | rfl
    · exact ⟨d, by rw [hred v, if_pos (by simp [hfal])]; exact hdf⟩
    · rw [hred (PyVal.str s)]
      by_cases hs : pyTruthy (PyVal.str s)
      · rw [if_neg (by simp [hs])]
        show ∃ w, (match Parse.pyUuid s with
          | Option.some u => Except.ok (PyVal.uuid u)
          | Option.none => runDF df) = Except.ok w
        cases hp : Parse.pyUuid s with
        | none => exact ⟨d, hdf⟩
        | some u => exact ⟨PyVal.uuid u, rfl⟩
      · rw [if_pos hs]
        exact ⟨d, hdf⟩
    · exact ⟨PyVal.uuid u, by rw [hred (PyVal.uuid u), if_neg (by simp [pyTruthy])]⟩
    · exact ⟨d, by rw [hred PyVal.descr, if_neg (by simp [pyTruthy])]; exact hdf⟩

/-- Witness for the amended C2: a malformed integer string and an
unparsable identifier string both store the default instead of raising. -/
theorem nonstrict_set_fallback_witness :
    (∃ w, setField 1 [] (FieldKind.intStr dfInt0) (PyVal.str "abc") = Except.ok w) ∧
    (∃ w, setField 1 [] (FieldKind.strUuid dfInt0 false) (PyVal.str "zzz") =
      Except.ok w) :=
  ⟨(nonstrict_set_fallback [] 0 dfInt0 (PyVal.int 0) rfl).1 (PyVal.str "abc")
      (fun s hs => by
        have hse : s = "abc" := ((PyVal.str.injEq ..).mp hs).symm
        subst hse
        refine ⟨fun h => ?_, fun h => ?_⟩
        · rw [show Parse.pyFloat "abc" = Option.none from rfl] at h
          cases h
        · rw [show Parse.pyFloat "abc" = Option.none from rfl] at h
          cases h),
   (nonstrict_set_fallback [] 0 dfInt0 (PyVal.int 0) rfl).2.2.2.2.2 (PyVal.str "zzz")
      (Or.inr (Or.inl ⟨"zzz", rfl⟩))⟩

/-- C5 (amended): the map-of-nested-entity write silently drops any entry
whose value is neither an instance of the target class nor a mapping —
like the list rule and unlike the pass-through the claim states. -/
theorem map_set_drops (fuel : Nat) (env : Env) (cls : String) (df : DF)
    (m r : List (String × PyVal)) (key : String) (v : PyVal)
    (hset : setField (fuel + 1) env (FieldKind.omap cls df) (PyVal.dict m) =
      Except.ok (PyVal.dict r))
    (hnd : (m.map Prod.fst).Nodup) (hmem : (key, v) ∈ m)
    (hd : v.isDict = false) (hi : v.isInstOf cls = false) :
    alookup r key = Option.none := by
  have hred : setField (fuel + 1) env (FieldKind.omap cls df) (PyVal.dict m) =
      (match omapConv fuel env cls m with
       | Except.ok ys => Except.ok (PyVal.dict ys)
       | Except.error e => Except.error e) := rfl
  rw [hred] at hset
  cases hc : omapConv fuel env cls m with
  | error e => rw [hc] at hset; simp at hset
  | ok ys =>
    rw [hc] at hset
    rw [Except.ok.injEq, PyVal.dict.injEq] at hset
    cases halo : alookup r key with
    | none => rfl
    | some w =>
      exfalso
      have hkmem := alookup_some_imp_mem_keys r key w halo
      obtain ⟨x, hxm, hgood⟩ :=
        omapConv_keys env cls m fuel r (hset ▸ hc) key hkmem
      have hxv : x = v := mem_keyed_nodup_unique m key x v hnd hxm hmem
      rcases hgood with hg | hg
      · rw [hxv] at hg
        simp [hi] at hg
      · rw [hxv] at hg
        simp [hd] at hg

/-- Witness for the amended C5: the key mapped to an integer is absent
from the canonical map. -/
theorem map_set_drops_witness :
    alookup [] "k" = Option.none :=
  map_set_drops 8 [] "C" dfInt0 [("k", PyVal.int 5)] [] "k" (PyVal.int 5)
    rfl (by simp) (List.mem_singleton.mpr rfl) rfl rfl

/-- C9 (amended): for every configuration of SingleObjectDescriptor —
optional or not — __set__ raises a ValueError exactly on truthy values
that are neither a mapping nor an instance of the target class; falsy
values store the default source's result, a non-empty mapping constructs
the nested entity (propagating its constructor's outcome), and a
matching instance is stored as-is. -/
theorem single_set_cases (fuel fl : Nat) (env : Env) (cls : String)
    (default : Option PyVal) (factory : Option DF) (optional : Bool) (v : PyVal) :
    (pyTruthy v = true → v.isDict = false → v.isInstOf cls = false →
      setField (fl + 1) env (singleObjectInit fuel env cls default factory optional) v =
        Except.error (PyErr.valueError ("Value must be a dict or a " ++ cls ++ " instance"))) ∧
    (pyTruthy v = false →
      setField (fl + 1) env (singleObjectInit fuel env cls default factory optional) v =
        runDF (singleDF fuel env cls default factory optional)) ∧
    (∀ kw, v = PyVal.dict kw → kw ≠ [] →
      setField (fl + 1) env (singleObjectInit fuel env cls default factory optional) v =
        importE fl env cls kw) ∧
    (∀ a, v = PyVal.ent cls a →
      setField (fl + 1) env (singleObjectInit fuel env cls default factory optional) v =
        Except.ok v) := by
  have hred : ∀ x, setField (fl + 1) env
      (singleObjectInit fuel env cls default factory optional) x =
      (if ¬ pyTruthy x then runDF (singleDF fuel env cls default factory optional)
       else match x with
         | PyVal.dict kw => importE fl env cls kw
         | PyVal.ent ty attrs =>
           if ty = cls then Except.ok (PyVal.ent ty attrs)
           else Except.error
             (PyErr.valueError ("Value must be a dict or a " ++ cls ++ " instance"))
         | _ => Except.error
             (PyErr.valueError ("Value must be a dict or a " ++ cls ++ " instance"))) :=
    fun x => rfl
  refine ⟨?_, ?_, ?_, ?_⟩
  · intro ht hd hi
    rw [hred v, if_neg (by simp [ht])]
    cases v with
    | dict kw => simp [PyVal.isDict] at hd
    | ent ty a =>
      have hne : ¬ ty = cls := by
        intro he
        rw [show PyVal.isInstOf (PyVal.ent ty a) cls = decide (ty = cls) from rfl] at hi
        simp [he] at hi
      show (if ty = cls then Except.ok (PyVal.ent ty a)
        else Except.error
          (PyErr.valueError ("Value must be a dict or a " ++ cls ++ " instance"))) =
        Except.error (PyErr.valueError ("Value must be a dict or a " ++ cls ++ " instance"))
      rw [if_neg hne]
    | none => rfl
    | bool b => rfl
    | int n => rfl
    | float q => rfl
    | str s => rfl
    | uuid u => rfl
    | list xs => rfl
    | wrap c sv => rfl
    | descr => rfl
  · intro hf
    rw [hred v, if_pos (by simp [hf])]
  · intro kw hv hkw
    subst hv
    have ht : pyTruthy (PyVal.dict kw) = true := by
      simp [pyTruthy, hkw]
    rw [hred (PyVal.dict kw), if_neg (by simp [ht])]
  · intro a hv
    subst hv
    rw [hred (PyVal.ent cls a), if_neg (by simp [pyTruthy])]
    show (if cls = cls then Except.ok (PyVal.ent cls a)
      else Except.error
        (PyErr.valueError ("Value must be a dict or a " ++ cls ++ " instance"))) =
      Except.ok (PyVal.ent cls a)
    rw [if_pos rfl]

/-- Witness for the amended C9: a truthy string raises the ValueError on
a non-optional attribute, and None stores the resolved default. -/
theorem single_set_cases_witness :
    setField 1 [] (singleObjectInit 0 [] "D" Option.none Option.none false)
      (PyVal.str "x") =
      Except.error (PyErr.valueError ("Value must be a dict or a " ++ "D" ++ " instance")) ∧
    setField 1 [] (singleObjectInit 0 [] "D" Option.none Option.none false) PyVal.none =
      runDF (singleDF 0 [] "D" Option.none Option.none false) :=
  ⟨(single_set_cases 0 0 [] "D" Option.none Option.none false (PyVal.str "x")).1
      (by decide) rfl rfl,
   (single_set_cases 0 0 [] "D" Option.none Option.none false PyVal.none).2.1 rfl⟩

/-- C10: reading a never-set attribute through any non-caching descriptor
(every scalar, list, map and string-wrapper accessor) leaves the instance
dict unchanged and invokes the default factory once per read — a second
read invokes it again; through SingleObjectDescriptor the first read
stores the factory result into the instance dict and a second read
returns that cached object with no further factory call. -/
theorem read_caching_per_kind (k : FieldKind) (name : String)
    (attrs : List (String × PyVal)) (df : DF) (d : PyVal)
    (hdf0 : k.dfOf = Option.some df) (hdf : runDF df = Except.ok d)
    (habs : alookup attrs name = Option.none) :
    (k.caches = false →
      descGet k name attrs = (Except.ok d, attrs, 1) ∧
      descGet k name (descGet k name attrs).2.1 = (Except.ok d, attrs, 1)) ∧
    (∀ cls df2, k = FieldKind.single cls df2 →
      descGet k name attrs = (Except.ok d, attrs ++ [(name, d)], 1) ∧
      descGet k name (attrs ++ [(name, d)]) =
        (Except.ok d, attrs ++ [(name, d)], 0)) := by
  cases k with
  | plain d0 f0 => simp [FieldKind.dfOf] at hdf0
  | single cls df2 =>
    injection hdf0 with hdd
    subst hdd
    constructor
    · intro hc
      simp [FieldKind.caches] at hc
    · intro cls2 df3 heq
      have h1 : descGet (FieldKind.single cls df2) name attrs =
          (Except.ok d, attrs ++ [(name, d)], 1) := by
        rw [show descGet (FieldKind.single cls df2) name attrs =
            (match alookup attrs name with
             | Option.some v => (Except.ok v, attrs, 0)
             | Option.none =>
               match runDF df2 with
               | Except.ok dd => (Except.ok dd, attrs ++ [(name, dd)], 1)
               | Except.error e => (Except.error e, attrs, 1)) from rfl, habs, hdf]
      refine ⟨h1, ?_⟩
      rw [show descGet (FieldKind.single cls df2) name (attrs ++ [(name, d)]) =
          (match alookup (attrs ++ [(name, d)]) name with
           | Option.some v => (Except.ok v, attrs ++ [(name, d)], 0)
           | Option.none =>
             match runDF df2 with
             | Except.ok dd => (Except.ok dd, (attrs ++ [(name, d)]) ++ [(name, dd)], 1)
             | Except.error e => (Except.error e, attrs ++ [(name, d)], 1)) from rfl,
        alookup_append_of_none attrs name d habs]
  | intStr df2 =>
    injection hdf0 with hdd
    subst hdd
    refine ⟨fun _ => ?_, fun cls9 df9 heq => by simp at heq⟩
    have h1 : descGet (FieldKind.intStr df2) name attrs = (Except.ok d, attrs, 1) := by
      rw [show descGet (FieldKind.intStr df2) name attrs =
        (match alookup attrs name with
         | Option.some v =>
           if v.isNone then (runDF df2, attrs, 1) else (Except.ok v, attrs, 0)
         | Option.none => (runDF df2, attrs, 1)) from rfl, habs, hdf]
    exact ⟨h1, by rw [h1]; exact h1⟩
  | boolInt df2 =>
    injection hdf0 with hdd
    subst hdd
    refine ⟨fun _ => ?_, fun cls9 df9 heq => by simp at heq⟩
    have h1 : descGet (FieldKind.boolInt df2) name attrs = (Except.ok d, attrs, 1) := by
      rw [show descGet (FieldKind.boolInt df2) name attrs =
        (match alookup attrs name with
         | Option.some v =>
           if v.isNone then (runDF df2, attrs, 1) else (Except.ok v, attrs, 0)
         | Option.none => (runDF df2, attrs, 1)) from rfl, habs, hdf]
    exact ⟨h1, by rw [h1]; exact h1⟩
  | strUuid df2 roe =>
    injection hdf0 with hdd
    subst hdd
    refine ⟨fun _ => ?_, fun cls9 df9 heq => by simp at heq⟩
    have h1 : descGet (FieldKind.strUuid df2 roe) name attrs = (Except.ok d, attrs, 1) := by
      rw [show descGet (FieldKind.strUuid df2 roe) name attrs =
        (match alookup attrs name with
         | Option.some v =>
           if v.isNone then (runDF df2, attrs, 1) else (Except.ok v, attrs, 0)
         | Option.none => (runDF df2, attrs, 1)) from rfl, habs, hdf]
    exact ⟨h1, by rw [h1]; exact h1⟩
  | listInt df2 =>
    injection hdf0 with hdd
    subst hdd
    refine ⟨fun _ => ?_, fun cls9 df9 heq => by simp at heq⟩
    have h1 : descGet (FieldKind.listInt df2) name attrs = (Except.ok d, attrs, 1) := by
      rw [show descGet (FieldKind.listInt df2) name attrs =
        (match alookup attrs name with
         | Option.some v =>
           if v.isNone then (runDF df2, attrs, 1) else (Except.ok v, attrs, 0)
         | Option.none => (runDF df2, attrs, 1)) from rfl, habs, hdf]
    exact ⟨h1, by rw [h1]; exact h1⟩
  | listUuid df2 roe =>
    injection hdf0 with hdd
    subst hdd
    refine ⟨fun _ => ?_, fun cls9 df9 heq => by simp at heq⟩
    have h1 : descGet (FieldKind.listUuid df2 roe) name attrs = (Except.ok d, attrs, 1) := by
      rw [show descGet (FieldKind.listUuid df2 roe) name attrs =
        (match alookup attrs name with
         | Option.some v =>
           if v.isNone then (runDF df2, attrs, 1) else (Except.ok v, attrs, 0)
         | Option.none => (runDF df2, attrs, 1)) from rfl, habs, hdf]
    exact ⟨h1, by rw [h1]; exact h1⟩
  | strWrap cls df2 =>
    injection hdf0 with hdd
    subst hdd
    refine ⟨fun _ => ?_, fun cls9 df9 heq => by simp at heq⟩
    have h1 : descGet (FieldKind.strWrap cls df2) name attrs = (Except.ok d, attrs, 1) := by
      rw [show descGet (FieldKind.strWrap cls df2) name attrs =
        (match alookup attrs name with
         | Option.some v =>
           if v.isNone then (runDF df2, attrs, 1) else (Except.ok v, attrs, 0)
         | Option.none => (runDF df2, attrs, 1)) from rfl, habs, hdf]
    exact ⟨h1, by rw [h1]; exact h1⟩
  | olist cls df2 =>
    injection hdf0 with hdd
    subst hdd
    refine ⟨fun _ => ?_, fun cls9 df9 heq => by simp at heq⟩
    have h1 : descGet (FieldKind.olist cls df2) name attrs = (Except.ok d, attrs, 1) := by
      rw [show descGet (FieldKind.olist cls df2) name attrs =
        (match alookup attrs name with
         | Option.some v =>
           if v.isNone then (runDF df2, attrs, 1) else (Except.ok v, attrs, 0)
         | Option.none => (runDF df2, attrs, 1)) from rfl, habs, hdf]
    exact ⟨h1, by rw [h1]; exact h1⟩
  | omap cls df2 =>
    injection hdf0 with hdd
    subst hdd
    refine ⟨fun _ => ?_, fun cls9 df9 heq => by simp at heq⟩
    have h1 : descGet (FieldKind.omap cls df2) name attrs = (Except.ok d, attrs, 1) := by
      rw [show descGet (FieldKind.omap cls df2) name attrs =
        (match alookup attrs name with
         | Option.some v =>
           if v.isNone then (runDF df2, attrs, 1) else (Except.ok v, attrs, 0)
         | Option.none => (runDF df2, attrs, 1)) from rfl, habs, hdf]
    exact ⟨h1, by rw [h1]; exact h1⟩

/-- Witness for C10: the integer accessor re-runs its factory on each of
two reads without touching the instance; the single-object accessor
caches its default on first read and reads it back with no factory call. -/
theorem read_caching_witness :
    (descGet (FieldKind.intStr dfInt0) "x" [] = (Except.ok (PyVal.int 0), [], 1) ∧
      descGet (FieldKind.intStr dfInt0) "x"
        (descGet (FieldKind.intStr dfInt0) "x" []).2.1 =
        (Except.ok (PyVal.int 0), [], 1)) ∧
    (descGet (FieldKind.single "C" dfInt0) "x" [] =
      (Except.ok (PyVal.int 0), [("x", PyVal.int 0)], 1) ∧
      descGet (FieldKind.single "C" dfInt0) "x" [("x", PyVal.int 0)] =
        (Except.ok (PyVal.int 0), [("x", PyVal.int 0)], 0)) :=
  ⟨(read_caching_per_kind (FieldKind.intStr dfInt0) "x" [] dfInt0 (PyVal.int 0)
      rfl rfl rfl).1 rfl,
   (read_caching_per_kind (FieldKind.single "C" dfInt0) "x" [] dfInt0 (PyVal.int 0)
      rfl rfl rfl).2 "C" dfInt0 rfl⟩

/-- C3 counterexample: in envRound the optional single-object attribute
child holds entities of the attribute-less class C0. Importing the input
child: (x: 1) constructs a C0 child (extra keys ignored); exporting the
result renders that child as the empty — hence falsy — dict, which the
re-import routes to the default source, storing None: the second import
differs from the first, so import-export-import is not idempotent. -/
theorem roundtrip_counterexample :
    importE 9 envRound "T3" [("child", PyVal.dict [("x", PyVal.int 1)])] =
      Except.ok (PyVal.ent "T3" [("child", PyVal.ent "C0" [])]) ∧
    toJsonE 9 envRound false "T3" [("child", PyVal.ent "C0" [])] =
      Except.ok (PyVal.dict [("child", PyVal.dict [])]) ∧
    importE 9 envRound "T3" [("child", PyVal.dict [])] =
      Except.ok (PyVal.ent "T3" [("child", PyVal.none)]) ∧
    PyVal.ent "T3" [("child", PyVal.none)] ≠
      PyVal.ent "T3" [("child", PyVal.ent "C0" [])] :=
  ⟨rfl, rfl, rfl, by simp⟩

/-! ## Round-trip development -/

theorem isNone_true_iff (v : PyVal) : v.isNone = true ↔ v = PyVal.none := by
  cases v <;> simp [PyVal.isNone]

theorem entFreeP_lookup (m : List (String × PyVal)) (name : String) (w : PyVal)
    (hm : entFreeP m = true) (h : alookup m name = Option.some w) :
    entFree w = true := by
  induction m with
  | nil => simp [alookup] at h
  | cons hd tl ih =>
    obtain ⟨k, v⟩ := hd
    rw [show entFreeP ((k, v) :: tl) = (entFree v && entFreeP tl) from rfl,
      Bool.and_eq_true] at hm
    by_cases hk : k = name
    · rw [show alookup ((k, v) :: tl) name = if k = name then Option.some v
        else alookup tl name from rfl, if_pos hk, Option.some.injEq] at h
      rw [← h]
      exact hm.1
    · rw [show alookup ((k, v) :: tl) name = if k = name then Option.some v
        else alookup tl name from rfl, if_neg hk] at h
      exact ih hm.2 h

theorem entFree_pyGet (m : List (String × PyVal)) (name : String)
    (hm : entFreeP m = true) : entFree (pyGet m name) = true := by
  unfold pyGet
  cases h : alookup m name with
  | none => rfl
  | some w => exact entFreeP_lookup m name w hm h

theorem alookup_self_of_nodup (l : List (String × PyVal))
    (hnd : (l.map Prod.fst).Nodup) :
    ∀ p ∈ l, alookup l p.1 = Option.some p.2 := by
  induction l with
  | nil => intro p hp; simp at hp
  | cons hd tl ih =>
    intro p hp
    obtain ⟨k, v⟩ := hd
    simp at hnd
    rcases List.mem_cons.mp hp with h1 | h1
    · subst h1
      simp [alookup]
    · have hk : k ≠ p.1 := by
        intro he
        exact hnd.1 p.2 (by rw [he]; exact (by simpa using h1))
      rw [show alookup ((k, v) :: tl) p.1 = if k = p.1 then Option.some v
        else alookup tl p.1 from rfl, if_neg hk]
      exact ih hnd.2 p h1

theorem requiredMissing_empty_mem (T : EntityType) (m : List (String × PyVal))
    (h : requiredMissing T m = []) :
    ∀ name, (name, FieldKind.plain Option.none Option.none) ∈ T.fields →
      ∃ w, alookup m name = Option.some w ∧ w ≠ PyVal.none := by
  intro name hmem
  have hall := List.filterMap_eq_nil_iff.mp h (name, FieldKind.plain Option.none Option.none) hmem
  replace hall : (match alookup m name with
    | Option.none => Option.some name
    | Option.some PyVal.none => Option.some name
    | Option.some _ => Option.none) = Option.none := hall
  cases halo : alookup m name with
  | none =>
    exfalso
    rw [halo] at hall
    cases hall
  | some w =>
    cases w with
    | none =>
      exfalso
      rw [halo] at hall
      cases hall
    | _ => exact ⟨_, rfl, by simp⟩

theorem requiredMissing_nil (T : EntityType) (l : List (String × PyVal))
    (h : ∀ name, (name, FieldKind.plain Option.none Option.none) ∈ T.fields →
      ∃ jv, alookup l name = Option.some jv ∧ jv ≠ PyVal.none) :
    requiredMissing T l = [] := by
  apply List.filterMap_eq_nil_iff.mpr
  intro p hp
  obtain ⟨name, k⟩ := p
  cases k with
  | plain d f =>
    cases d with
    | some dv => rfl
    | none =>
      cases f with
      | some fn => rfl
      | none =>
        obtain ⟨jv, hjv, hne⟩ := h name hp
        show (match alookup l name with
          | Option.none => Option.some name
          | Option.some PyVal.none => Option.some name
          | Option.some _ => Option.none) = Option.none
        rw [hjv]
        cases jv with
        | none => exact absurd rfl hne
        | _ => rfl
  | _ => rfl

theorem filterMap_pyIntOf_id (xs : List PyVal)
    (h : ∀ x ∈ xs, ∃ n, x = PyVal.int n) : xs.filterMap pyIntOf = xs := by
  induction xs with
  | nil => rfl
  | cons x rest ih =>
    obtain ⟨n, hn⟩ := h x (List.mem_cons_self ..)
    subst hn
    rw [show (PyVal.int n :: rest).filterMap pyIntOf =
      PyVal.int n :: rest.filterMap pyIntOf from rfl,
      ih fun y hy => h y (List.mem_cons_of_mem _ hy)]

theorem filterMap_pyIntOf_ints (xs : List PyVal) :
    ∀ y ∈ xs.filterMap pyIntOf, ∃ n, y = PyVal.int n := by
  intro y hy
  obtain ⟨x, _, hx⟩ := List.mem_filterMap.mp hy
  cases x with
  | int n => exact ⟨n, by injection hx with h; rw [← h]⟩
  | bool b => exact ⟨if b then 1 else 0, by injection hx with h; rw [← h]⟩
  | float q => exact ⟨ratTrunc q, by injection hx with h; rw [← h]⟩
  | str s =>
    rw [show pyIntOf (PyVal.str s) = (match Parse.pyIntLit s with
      | Option.some n => Option.some (PyVal.int n)
      | Option.none => Option.none) from rfl] at hx
    cases hp : Parse.pyIntLit s with
    | none => rw [hp] at hx; cases hx
    | some n =>
      rw [hp] at hx
      exact ⟨n, by injection hx with h; rw [← h]⟩
  | none => cases hx
  | uuid u => cases hx
  | list l => cases hx
  | dict l => cases hx
  | ent t a => cases hx
  | wrap c sv => cases hx
  | descr => cases hx

theorem listUuidConv_shape (roe : Bool) (xs ys : List PyVal)
    (h : listUuidConv roe xs = Except.ok ys) :
    ∀ y ∈ ys, ∃ u, y = PyVal.uuid u := by
  induction xs generalizing ys with
  | nil =>
    rw [show listUuidConv roe [] = Except.ok [] from rfl, Except.ok.injEq] at h
    rw [← h]
    intro y hy
    simp at hy
  | cons x rest ih =>
    cases x with
    | uuid u =>
      replace h : (match listUuidConv roe rest with
        | Except.error e => Except.error e
        | Except.ok ys => Except.ok (PyVal.uuid u :: ys)) = Except.ok ys := h
      cases hr : listUuidConv roe rest with
      | error e => rw [hr] at h; cases h
      | ok ys2 =>
        rw [hr] at h
        rw [Except.ok.injEq] at h
        rw [← h]
        intro y hy
        rcases List.mem_cons.mp hy with h1 | h1
        · exact ⟨u, h1⟩
        · exact ih ys2 hr y h1
    | _ =>
      simp only [listUuidConv] at h
      split at h
      · next u0 heq =>
        cases hr : listUuidConv roe rest with
        | error e => rw [hr] at h; cases h
        | ok ys2 =>
          rw [hr] at h
          rw [Except.ok.injEq] at h
          rw [← h]
          intro y hy
          rcases List.mem_cons.mp hy with h1 | h1
          · exact ⟨u0, h1⟩
          · exact ih ys2 hr y h1
      · split at h
        · cases h
        · exact ih ys h

theorem listUuidConv_uuid_id (roe : Bool) (xs : List PyVal)
    (h : ∀ x ∈ xs, ∃ u, x = PyVal.uuid u) : listUuidConv roe xs = Except.ok xs := by
  induction xs with
  | nil => rfl
  | cons x rest ih =>
    obtain ⟨u, hu⟩ := h x (List.mem_cons_self ..)
    subst hu
    replace ih := ih fun y hy => h y (List.mem_cons_of_mem _ hy)
    rw [show listUuidConv roe (PyVal.uuid u :: rest) =
      (match listUuidConv roe rest with
        | Except.error e => Except.error e
        | Except.ok ys => Except.ok (PyVal.uuid u :: ys)) from rfl, ih]

theorem export_entfree (env : Env) (instTy : String) : ∀ n : Nat,
    (∀ v j, entFree v = true →
      exportRec n env instTy false v = Except.ok j → j = v) ∧
    (∀ xs ys, entFreeL xs = true →
      exportList n env instTy false xs = Except.ok ys → ys = xs) ∧
    (∀ xs ys, entFreeP xs = true →
      exportPairs n env instTy false xs = Except.ok ys → ys = xs) := by
  intro n
  induction n with
  | zero =>
    refine ⟨?_, ?_, ?_⟩
    · intro v j _ h
      cases h
    · intro xs ys _ h
      cases h
    · intro xs ys _ h
      cases h
  | succ n ih =>
    obtain ⟨ih1, ih2, ih3⟩ := ih
    refine ⟨?_, ?_, ?_⟩
    · intro v j hf hexp
      cases v with
      | ent ty a => exact Bool.noConfusion hf
      | descr => exact Bool.noConfusion hf
      | list xs =>
        replace hexp : (match exportList n env instTy false xs with
          | Except.ok ys => Except.ok (PyVal.list ys)
          | Except.error e => Except.error e) = Except.ok j := hexp
        cases he : exportList n env instTy false xs with
        | error e => rw [he] at hexp; cases hexp
        | ok ys =>
          rw [he] at hexp
          rw [Except.ok.injEq] at hexp
          rw [← hexp, ih2 xs ys hf he]
      | dict xs =>
        replace hexp : (match exportPairs n env instTy false xs with
          | Except.ok ys => Except.ok (PyVal.dict ys)
          | Except.error e => Except.error e) = Except.ok j := hexp
        cases he : exportPairs n env instTy false xs with
        | error e => rw [he] at hexp; cases hexp
        | ok ys =>
          rw [he] at hexp
          rw [Except.ok.injEq] at hexp
          rw [← hexp, ih3 xs ys hf he]
      | none => exact (Except.ok.injEq .. ▸ hexp).symm
      | bool b => exact (Except.ok.injEq .. ▸ hexp).symm
      | int k => exact (Except.ok.injEq .. ▸ hexp).symm
      | float q => exact (Except.ok.injEq .. ▸ hexp).symm
      | str s => exact (Except.ok.injEq .. ▸ hexp).symm
      | uuid u => exact (Except.ok.injEq .. ▸ hexp).symm
      | wrap c sv => exact (Except.ok.injEq .. ▸ hexp).symm
    · intro xs ys hf hexp
      cases xs with
      | nil =>
        rw [show exportList (Nat.succ n) env instTy false [] = Except.ok [] from rfl,
          Except.ok.injEq] at hexp
        rw [← hexp]
      | cons x rest =>
        rw [show entFreeL (x :: rest) = (entFree x && entFreeL rest) from rfl,
          Bool.and_eq_true] at hf
        replace hexp : (match exportRec n env instTy false x with
          | Except.error e => Except.error e
          | Except.ok y =>
            match exportList n env instTy false rest with
            | Except.error e => Except.error e
            | Except.ok ys => Except.ok (y :: ys)) = Except.ok ys := hexp
        cases he1 : exportRec n env instTy false x with
        | error e => rw [he1] at hexp; cases hexp
        | ok y =>
          rw [he1] at hexp
          cases he2 : exportList n env instTy false rest with
          | error e => rw [he2] at hexp; cases hexp
          | ok ys2 =>
            rw [he2] at hexp
            rw [Except.ok.injEq] at hexp
            rw [← hexp, ih1 x y hf.1 he1, ih2 rest ys2 hf.2 he2]
    · intro xs ys hf hexp
      cases xs with
      | nil =>
        rw [show exportPairs (Nat.succ n) env instTy false [] = Except.ok [] from rfl,
          Except.ok.injEq] at hexp
        rw [← hexp]
      | cons hd rest =>
        obtain ⟨key, x⟩ := hd
        rw [show entFreeP ((key, x) :: rest) = (entFree x && entFreeP rest) from rfl,
          Bool.and_eq_true] at hf
        replace hexp : (match exportRec n env instTy false x with
          | Except.error e => Except.error e
          | Except.ok y =>
            match exportPairs n env instTy false rest with
            | Except.error e => Except.error e
            | Except.ok ys => Except.ok ((key, y) :: ys)) = Except.ok ys := hexp
        cases he1 : exportRec n env instTy false x with
        | error e => rw [he1] at hexp; cases hexp
        | ok y =>
          rw [he1] at hexp
          cases he2 : exportPairs n env instTy false rest with
          | error e => rw [he2] at hexp; cases hexp
          | ok ys2 =>
            rw [he2] at hexp
            rw [Except.ok.injEq] at hexp
            rw [← hexp, ih1 x y hf.1 he1, ih3 rest ys2 hf.2 he2]

theorem import_mono (env : Env) : ∀ n : Nat,
    (∀ ty m v, importE n env ty m = Except.ok v →
      importE (Nat.succ n) env ty m = Except.ok v) ∧
    (∀ m fs attrs, importFields n env m fs = Except.ok attrs →
      importFields (Nat.succ n) env m fs = Except.ok attrs) ∧
    (∀ m name k v, importFieldVal n env m name k = Except.ok v →
      importFieldVal (Nat.succ n) env m name k = Except.ok v) ∧
    (∀ k a v, setField n env k a = Except.ok v →
      setField (Nat.succ n) env k a = Except.ok v) ∧
    (∀ cls xs ys, olistConv n env cls xs = Except.ok ys →
      olistConv (Nat.succ n) env cls xs = Except.ok ys) ∧
    (∀ cls xs ys, omapConv n env cls xs = Except.ok ys →
      omapConv (Nat.succ n) env cls xs = Except.ok ys) := by
  intro n
  induction n with
  | zero =>
    refine ⟨?_, ?_, ?_, ?_, ?_, ?_⟩
    · intro ty m v h
      cases h
    · intro m fs attrs h
      cases h
    · intro m name k v h
      cases h
    · intro k a v h
      cases h
    · intro cls xs ys h
      cases h
    · intro cls xs ys h
      cases h
  | succ n ih =>
    obtain ⟨ihE, ihF, ihV, ihS, ihL, ihM⟩ := ih
    refine ⟨?_, ?_, ?_, ?_, ?_, ?_⟩
    · intro ty m v h
      cases hT : lookupTy env ty with
      | none =>
        have hz : importE (Nat.succ n) env ty m =
            Except.error (PyErr.lookupFailed ty) := by
          simp only [importE]
          rw [hT]
        rw [hz] at h
        cases h
      | some T =>
        rw [importE_succ_some n env ty m T hT] at h
        rw [importE_succ_some (Nat.succ n) env ty m T hT]
        by_cases hmiss : requiredMissing T m = []
        · rw [if_pos hmiss] at h ⊢
          cases hf : importFields n env m T.fields with
          | error e => rw [hf] at h; cases h
          | ok attrs =>
            rw [hf] at h
            rw [ihF m T.fields attrs hf]
            exact h
        · rw [if_neg hmiss] at h ⊢
          exact h
    · intro m fs attrs h
      cases fs with
      | nil => exact h
      | cons hd rest =>
        obtain ⟨name, k⟩ := hd
        replace h : (match importFieldVal n env m name k with
          | Except.error e => Except.error e
          | Except.ok v =>
            match importFields n env m rest with
            | Except.error e => Except.error e
            | Except.ok attrs2 => Except.ok ((name, v) :: attrs2)) = Except.ok attrs := h
        show (match importFieldVal (Nat.succ n) env m name k with
          | Except.error e => Except.error e
          | Except.ok v =>
            match importFields (Nat.succ n) env m rest with
            | Except.error e => Except.error e
            | Except.ok attrs2 => Except.ok ((name, v) :: attrs2)) = Except.ok attrs
        cases hv : importFieldVal n env m name k with
        | error e => rw [hv] at h; cases h
        | ok v =>
          rw [hv] at h
          rw [ihV m name k v hv]
          cases hr : importFields n env m rest with
          | error e => rw [hr] at h; cases h
          | ok attrs2 =>
            rw [hr] at h
            rw [ihF m rest attrs2 hr]
            exact h
    · intro m name k v h
      cases k with
      | plain d f => exact h
      | single cls df => exact ihS _ _ _ h
      | olist cls df => exact ihS _ _ _ h
      | omap cls df => exact ihS _ _ _ h
      | intStr df => exact ihS _ _ _ h
      | boolInt df => exact ihS _ _ _ h
      | strUuid df roe => exact ihS _ _ _ h
      | listInt df => exact ihS _ _ _ h
      | listUuid df roe => exact ihS _ _ _ h
      | strWrap cls df => exact ihS _ _ _ h
    · intro k a v h
      cases k with
      | plain d f => exact h
      | intStr df => exact h
      | boolInt df => exact h
      | strUuid df roe => exact h
      | listInt df => exact h
      | listUuid df roe => exact h
      | strWrap cls df => exact h
      | single cls df =>
        cases a with
        | dict kw =>
          replace h : (if ¬ pyTruthy (PyVal.dict kw) then runDF df
            else importE n env cls kw) = Except.ok v := h
          show (if ¬ pyTruthy (PyVal.dict kw) then runDF df
            else importE (Nat.succ n) env cls kw) = Except.ok v
          by_cases ht : pyTruthy (PyVal.dict kw)
          · rw [if_neg (by simp [ht])] at h ⊢
            exact ihE _ _ _ h
          · rw [if_pos (by simpa using ht)] at h ⊢
            exact h
        | ent ty attrs => exact h
        | none => exact h
        | bool b => exact h
        | int k2 => exact h
        | float q => exact h
        | str s => exact h
        | uuid u => exact h
        | list xs => exact h
        | wrap c sv => exact h
        | descr => exact h
      | olist cls df =>
        cases a with
        | list xs =>
          replace h : (match olistConv n env cls xs with
            | Except.ok ys => Except.ok (PyVal.list ys)
            | Except.error e => Except.error e) = Except.ok v := h
          show (match olistConv (Nat.succ n) env cls xs with
            | Except.ok ys => Except.ok (PyVal.list ys)
            | Except.error e => Except.error e) = Except.ok v
          cases hc : olistConv n env cls xs with
          | error e => rw [hc] at h; cases h
          | ok ys =>
            rw [hc] at h
            rw [ihL cls xs ys hc]
            exact h
        | none => exact h
        | bool b => exact h
        | int k2 => exact h
        | float q => exact h
        | str s => exact h
        | uuid u => exact h
        | dict kvs => exact h
        | ent ty attrs => exact h
        | wrap c sv => exact h
        | descr => exact h
      | omap cls df =>
        cases a with
        | dict kvs =>
          replace h : (match omapConv n env cls kvs with
            | Except.ok ys => Except.ok (PyVal.dict ys)
            | Except.error e => Except.error e) = Except.ok v := h
          show (match omapConv (Nat.succ n) env cls kvs with
            | Except.ok ys => Except.ok (PyVal.dict ys)
            | Except.error e => Except.error e) = Except.ok v
          cases hc : omapConv n env cls kvs with
          | error e => rw [hc] at h; cases h
          | ok ys =>
            rw [hc] at h
            rw [ihM cls kvs ys hc]
            exact h
        | none => exact h
        | bool b => exact h
        | int k2 => exact h
        | float q => exact h
        | str s => exact h
        | uuid u => exact h
        | list xs => exact h
        | ent ty attrs => exact h
        | wrap c sv => exact h
        | descr => exact h
    · intro cls xs ys h
      cases xs with
      | nil => exact h
      | cons x rest =>
        cases x with
        | dict kw =>
          replace h : (match importE n env cls kw with
            | Except.error e => Except.error e
            | Except.ok y =>
              match olistConv n env cls rest with
              | Except.error e => Except.error e
              | Except.ok ys => Except.ok (y :: ys)) = Except.ok ys := h
          show (match importE (Nat.succ n) env cls kw with
            | Except.error e => Except.error e
            | Except.ok y =>
              match olistConv (Nat.succ n) env cls rest with
              | Except.error e => Except.error e
              | Except.ok ys => Except.ok (y :: ys)) = Except.ok ys
          cases hi : importE n env cls kw with
          | error e => rw [hi] at h; cases h
          | ok y =>
            rw [hi] at h
            rw [ihE cls kw y hi]
            cases hc : olistConv n env cls rest with
            | error e => rw [hc] at h; cases h
            | ok ys2 =>
              rw [hc] at h
              rw [ihL cls rest ys2 hc]
              exact h
        | ent ty attrs =>
          replace h : (if ty = cls then
              match olistConv n env cls rest with
              | Except.error e => Except.error e
              | Except.ok ys => Except.ok (PyVal.ent ty attrs :: ys)
            else olistConv n env cls rest) = Except.ok ys := h
          show (if ty = cls then
              match olistConv (Nat.succ n) env cls rest with
              | Except.error e => Except.error e
              | Except.ok ys => Except.ok (PyVal.ent ty attrs :: ys)
            else olistConv (Nat.succ n) env cls rest) = Except.ok ys
          by_cases hty : ty = cls
          · rw [if_pos hty] at h ⊢
            cases hc : olistConv n env cls rest with
            | error e => rw [hc] at h; cases h
            | ok ys2 =>
              rw [hc] at h
              rw [ihL cls rest ys2 hc]
              exact h
          · rw [if_neg hty] at h ⊢
            exact ihL cls rest ys h
        | none => exact ihL cls rest ys h
        | bool b => exact ihL cls rest ys h
        | int k2 => exact ihL cls rest ys h
        | float q => exact ihL cls rest ys h
        | str s => exact ihL cls rest ys h
        | uuid u => exact ihL cls rest ys h
        | list xs2 => exact ihL cls rest ys h
        | wrap c sv => exact ihL cls rest ys h
        | descr => exact ihL cls rest ys h
    · intro cls xs ys h
      cases xs with
      | nil => exact h
      | cons hd rest =>
        obtain ⟨key, x⟩ := hd
        cases x with
        | dict kw =>
          replace h : (match importE n env cls kw with
            | Except.error e => Except.error e
            | Except.ok y =>
              match omapConv n env cls rest with
              | Except.error e => Except.error e
              | Except.ok ys => Except.ok ((key, y) :: ys)) = Except.ok ys := h
          show (match importE (Nat.succ n) env cls kw with
            | Except.error e => Except.error e
            | Except.ok y =>
              match omapConv (Nat.succ n) env cls rest with
              | Except.error e => Except.error e
              | Except.ok ys => Except.ok ((key, y) :: ys)) = Except.ok ys
          cases hi : importE n env cls kw with
          | error e => rw [hi] at h; cases h
          | ok y =>
            rw [hi] at h
            rw [ihE cls kw y hi]
            cases hc : omapConv n env cls rest with
            | error e => rw [hc] at h; cases h
            | ok ys2 =>
              rw [hc] at h
              rw [ihM cls rest ys2 hc]
              exact h
        | ent ty attrs =>
          replace h : (if ty = cls then
              match omapConv n env cls rest with
              | Except.error e => Except.error e
              | Except.ok ys => Except.ok ((key, PyVal.ent ty attrs) :: ys)
            else omapConv n env cls rest) = Except.ok ys := h
          show (if ty = cls then
              match omapConv (Nat.succ n) env cls rest with
              | Except.error e => Except.error e
              | Except.ok ys => Except.ok ((key, PyVal.ent ty attrs) :: ys)
            else omapConv (Nat.succ n) env cls rest) = Except.ok ys
          by_cases hty : ty = cls
          · rw [if_pos hty] at h ⊢
            cases hc : omapConv n env cls rest with
            | error e => rw [hc] at h; cases h
            | ok ys2 =>
              rw [hc] at h
              rw [ihM cls rest ys2 hc]
              exact h
          · rw [if_neg hty] at h ⊢
            exact ihM cls rest ys h
        | none => exact ihM cls rest ys h
        | bool b => exact ihM cls rest ys h
        | int k2 => exact ihM cls rest ys h
        | float q => exact ihM cls rest ys h
        | str s => exact ihM cls rest ys h
        | uuid u => exact ihM cls rest ys h
        | list xs2 => exact ihM cls rest ys h
        | wrap c sv => exact ihM cls rest ys h
        | descr => exact ihM cls rest ys h

theorem importE_le (env : Env) (n n2 : Nat) (h : n ≤ n2) (ty : String)
    (m : List (String × PyVal)) (v : PyVal)
    (hok : importE n env ty m = Except.ok v) : importE n2 env ty m = Except.ok v := by
  induction h with
  | refl => exact hok
  | step _ ih => exact (import_mono env _).1 _ _ _ ih

theorem importFields_le (env : Env) (n n2 : Nat) (h : n ≤ n2)
    (m : List (String × PyVal)) (fs : List (String × FieldKind))
    (attrs : List (String × PyVal))
    (hok : importFields n env m fs = Except.ok attrs) :
    importFields n2 env m fs = Except.ok attrs := by
  induction h with
  | refl => exact hok
  | step _ ih => exact (import_mono env _).2.1 _ _ _ ih

theorem importFieldVal_le (env : Env) (n n2 : Nat) (h : n ≤ n2)
    (m : List (String × PyVal)) (name : String) (k : FieldKind) (v : PyVal)
    (hok : importFieldVal n env m name k = Except.ok v) :
    importFieldVal n2 env m name k = Except.ok v := by
  induction h with
  | refl => exact hok
  | step _ ih => exact (import_mono env _).2.2.1 _ _ _ _ ih

theorem setField_le (env : Env) (n n2 : Nat) (h : n ≤ n2) (k : FieldKind)
    (a v : PyVal) (hok : setField n env k a = Except.ok v) :
    setField n2 env k a = Except.ok v := by
  induction h with
  | refl => exact hok
  | step _ ih => exact (import_mono env _).2.2.2.1 _ _ _ ih

theorem olistConv_le (env : Env) (n n2 : Nat) (h : n ≤ n2) (cls : String)
    (xs ys : List PyVal) (hok : olistConv n env cls xs = Except.ok ys) :
    olistConv n2 env cls xs = Except.ok ys := by
  induction h with
  | refl => exact hok
  | step _ ih => exact (import_mono env _).2.2.2.2.1 _ _ _ ih

theorem omapConv_le (env : Env) (n n2 : Nat) (h : n ≤ n2) (cls : String)
    (xs ys : List (String × PyVal))
    (hok : omapConv n env cls xs = Except.ok ys) :
    omapConv n2 env cls xs = Except.ok ys := by
  induction h with
  | refl => exact hok
  | step _ ih => exact (import_mono env _).2.2.2.2.2 _ _ _ ih

theorem import_canonical (env : Env) (hwf : WFEnv env) : ∀ n : Nat,
    (∀ ty m v, entFreeP m = true → importE n env ty m = Except.ok v →
      CanonEnt env ty v) ∧
    (∀ m fs attrs, entFreeP m = true → (∀ p ∈ fs, WFKind env p.2) →
      (∀ name, (name, FieldKind.plain Option.none Option.none) ∈ fs →
        ∃ w, alookup m name = Option.some w ∧ w ≠ PyVal.none) →
      importFields n env m fs = Except.ok attrs → CanonFields env fs attrs) ∧
    (∀ m name k v, entFreeP m = true → WFKind env k →
      (k = FieldKind.plain Option.none Option.none →
        ∃ w, alookup m name = Option.some w ∧ w ≠ PyVal.none) →
      importFieldVal n env m name k = Except.ok v → CanonV env k v) ∧
    (∀ k a v, entFree a = true ∨ a = PyVal.descr → k.dfOf.isSome = true →
      WFKind env k → setField n env k a = Except.ok v → CanonV env k v) ∧
    (∀ cls xs ys, entFreeL xs = true → olistConv n env cls xs = Except.ok ys →
      CanonList env cls ys) ∧
    (∀ cls xs ys, entFreeP xs = true → omapConv n env cls xs = Except.ok ys →
      CanonPairs env cls ys) := by
  intro n
  induction n with
  | zero =>
    refine ⟨?_, ?_, ?_, ?_, ?_, ?_⟩
    · intro ty m v _ h
      cases h
    · intro m fs attrs _ _ _ h
      cases h
    · intro m name k v _ _ _ h
      cases h
    · intro k a v _ _ _ h
      cases h
    · intro cls xs ys _ h
      cases h
    · intro cls xs ys _ h
      cases h
  | succ n ih =>
    obtain ⟨ihE, ihF, ihV, ihS, ihL, ihM⟩ := ih
    refine ⟨?_, ?_, ?_, ?_, ?_, ?_⟩
    · intro ty m v hm h
      cases hT : lookupTy env ty with
      | none =>
        have hz : importE (Nat.succ n) env ty m =
            Except.error (PyErr.lookupFailed ty) := by
          simp only [importE]
          rw [hT]
        rw [hz] at h
        cases h
      | some T =>
        rw [importE_succ_some n env ty m T hT] at h
        by_cases hmiss : requiredMissing T m = []
        · rw [if_pos hmiss] at h
          cases hf : importFields n env m T.fields with
          | error e => rw [hf] at h; cases h
          | ok attrs =>
            rw [hf] at h
            rw [Except.ok.injEq] at h
            have hwfT := hwf ty T hT
            have hcf := ihF m T.fields attrs hm hwfT.2.2
              (requiredMissing_empty_mem T m hmiss) hf
            rw [← h]
            exact CanonEnt.mk ty T attrs hT hcf
        · rw [if_neg hmiss] at h
          cases h
    · intro m fs attrs hm hks hreq h
      cases fs with
      | nil =>
        replace h : (Except.ok [] : Except PyErr (List (String × PyVal))) =
          Except.ok attrs := h
        rw [Except.ok.injEq] at h
        rw [← h]
        exact CanonFields.nil
      | cons hd rest =>
        obtain ⟨name, k⟩ := hd
        replace h : (match importFieldVal n env m name k with
          | Except.error e => Except.error e
          | Except.ok v =>
            match importFields n env m rest with
            | Except.error e => Except.error e
            | Except.ok attrs2 => Except.ok ((name, v) :: attrs2)) = Except.ok attrs := h
        cases hv : importFieldVal n env m name k with
        | error e => rw [hv] at h; cases h
        | ok v =>
          rw [hv] at h
          cases hr : importFields n env m rest with
          | error e => rw [hr] at h; cases h
          | ok attrs2 =>
            rw [hr] at h
            rw [Except.ok.injEq] at h
            have hck := ihV m name k v hm (hks (name, k) (List.mem_cons_self ..))
              (fun he => hreq name (by rw [← he]; exact List.mem_cons_self ..)) hv
            have hcr := ihF m rest attrs2 hm
              (fun p hp => hks p (List.mem_cons_of_mem _ hp))
              (fun name2 h2 => hreq name2 (List.mem_cons_of_mem _ h2)) hr
            rw [← h]
            exact CanonFields.cons name k v rest attrs2 hck hcr
    · intro m name k v hm hk hreq h
      cases k with
      | plain d f =>
        replace h : Except.ok (importPlainVal d f (pyGet m name)) = Except.ok v := h
        rw [Except.ok.injEq] at h
        rw [← h]
        have hwp : WFPlain d f := hk
        refine CanonV.plainV d f _ ?_ ?_
        · cases f with
          | some fn =>
            show entFree (if (pyGet m name).isNone then fn ()
              else pyGet m name) = true
            by_cases hni : (pyGet m name).isNone
            · rw [if_pos hni]
              exact hwp.1 fn rfl
            · rw [if_neg hni]
              exact entFree_pyGet m name hm
          | none =>
            cases d with
            | some dv =>
              show entFree (if (pyGet m name).isNone then dv
                else pyGet m name) = true
              by_cases hni : (pyGet m name).isNone
              · rw [if_pos hni]
                exact hwp.2 dv rfl
              · rw [if_neg hni]
                exact entFree_pyGet m name hm
            | none =>
              show entFree (if (pyGet m name).isNone then PyVal.none
                else pyGet m name) = true
              by_cases hni : (pyGet m name).isNone
              · rw [if_pos hni]
                rfl
              · rw [if_neg hni]
                exact entFree_pyGet m name hm
        · intro hv0
          cases f with
          | some fn =>
            replace hv0 : (if (pyGet m name).isNone then fn ()
              else pyGet m name) = PyVal.none := hv0
            show fn () = PyVal.none
            by_cases hni : (pyGet m name).isNone
            · rw [if_pos hni] at hv0
              exact hv0
            · rw [if_neg hni] at hv0
              exact absurd ((isNone_true_iff _).mpr hv0) (by simpa using hni)
          | none =>
            cases d with
            | some dv =>
              replace hv0 : (if (pyGet m name).isNone then dv
                else pyGet m name) = PyVal.none := hv0
              show Option.some dv = Option.some PyVal.none
              by_cases hni : (pyGet m name).isNone
              · rw [if_pos hni] at hv0
                rw [hv0]
              · rw [if_neg hni] at hv0
                exact absurd ((isNone_true_iff _).mpr hv0) (by simpa using hni)
            | none =>
              by_cases hni : (pyGet m name).isNone
              · obtain ⟨w, hw, hwne⟩ := hreq rfl
                have hpg : pyGet m name = w := by simp [pyGet, hw]
                rw [hpg] at hni
                exact absurd ((isNone_true_iff w).mp hni) hwne
              · replace hv0 : (if (pyGet m name).isNone then PyVal.none
                  else pyGet m name) = PyVal.none := hv0
                rw [if_neg hni] at hv0
                exact absurd ((isNone_true_iff _).mpr hv0) (by simpa using hni)
      | single cls df =>
        have harg : entFree (importArg name m) = true := by
          unfold importArg
          cases halo : alookup m name with
          | some w => exact entFreeP_lookup m name w hm halo
          | none => exact hm
        exact ihS (FieldKind.single cls df) (importArg name m) v (Or.inl harg) rfl hk h
      | olist cls df =>
        have harg : entFree (importArg name m) = true := by
          unfold importArg
          cases halo : alookup m name with
          | some w => exact entFreeP_lookup m name w hm halo
          | none => exact hm
        exact ihS (FieldKind.olist cls df) (importArg name m) v (Or.inl harg) rfl hk h
      | omap cls df =>
        have harg : entFree (importArg name m) = true := by
          unfold importArg
          cases halo : alookup m name with
          | some w => exact entFreeP_lookup m name w hm halo
          | none => exact hm
        exact ihS (FieldKind.omap cls df) (importArg name m) v (Or.inl harg) rfl hk h
      | intStr df =>
        have harg : entFree (if (pyGet m name).isNone then PyVal.descr
            else pyGet m name) = true ∨
            (if (pyGet m name).isNone then PyVal.descr else pyGet m name) =
              PyVal.descr := by
          by_cases hni : (pyGet m name).isNone
          · exact Or.inr (if_pos hni)
          · rw [if_neg hni]
            exact Or.inl (entFree_pyGet m name hm)
        exact ihS (FieldKind.intStr df) _ v harg rfl hk h
      | boolInt df =>
        have harg : entFree (if (pyGet m name).isNone then PyVal.descr
            else pyGet m name) = true ∨
            (if (pyGet m name).isNone then PyVal.descr else pyGet m name) =
              PyVal.descr := by
          by_cases hni : (pyGet m name).isNone
          · exact Or.inr (if_pos hni)
          · rw [if_neg hni]
            exact Or.inl (entFree_pyGet m name hm)
        exact ihS (FieldKind.boolInt df) _ v harg rfl hk h
      | strUuid df roe =>
        have harg : entFree (if (pyGet m name).isNone then PyVal.descr
            else pyGet m name) = true ∨
            (if (pyGet m name).isNone then PyVal.descr else pyGet m name) =
              PyVal.descr := by
          by_cases hni : (pyGet m name).isNone
          · exact Or.inr (if_pos hni)
          · rw [if_neg hni]
            exact Or.inl (entFree_pyGet m name hm)
        exact ihS (FieldKind.strUuid df roe) _ v harg rfl hk h
      | listInt df =>
        have harg : entFree (if (pyGet m name).isNone then PyVal.descr
            else pyGet m name) = true ∨
            (if (pyGet m name).isNone then PyVal.descr else pyGet m name) =
              PyVal.descr := by
          by_cases hni : (pyGet m name).isNone
          · exact Or.inr (if_pos hni)
          · rw [if_neg hni]
            exact Or.inl (entFree_pyGet m name hm)
        exact ihS (FieldKind.listInt df) _ v harg rfl hk h
      | listUuid df roe =>
        have harg : entFree (if (pyGet m name).isNone then PyVal.descr
            else pyGet m name) = true ∨
            (if (pyGet m name).isNone then PyVal.descr else pyGet m name) =
              PyVal.descr := by
          by_cases hni : (pyGet m name).isNone
          · exact Or.inr (if_pos hni)
          · rw [if_neg hni]
            exact Or.inl (entFree_pyGet m name hm)
        exact ihS (FieldKind.listUuid df roe) _ v harg rfl hk h
      | strWrap cls df =>
        have harg : entFree (if (pyGet m name).isNone then PyVal.descr
            else pyGet m name) = true ∨
            (if (pyGet m name).isNone then PyVal.descr else pyGet m name) =
              PyVal.descr := by
          by_cases hni : (pyGet m name).isNone
          · exact Or.inr (if_pos hni)
          · rw [if_neg hni]
            exact Or.inl (entFree_pyGet m name hm)
        exact ihS (FieldKind.strWrap cls df) _ v harg rfl hk h
    · intro k a v hfr hkp hk h
      cases k with
      | plain d f => simp [FieldKind.dfOf] at hkp
      | intStr df =>
        have hdfc : ∀ w, runDF df = Except.ok w → CanonV env (FieldKind.intStr df) w := hk
        cases a with
        | none => exact hdfc v h
        | str s =>
          replace h : (if s = "" then runDF df
            else match Parse.pyFloat s with
              | Option.some (PFloat.finite q) => Except.ok (PyVal.int (ratTrunc q))
              | Option.some PFloat.inf => Except.error
                  (PyErr.overflowError "cannot convert float infinity to integer")
              | Option.some PFloat.neginf => Except.error
                  (PyErr.overflowError "cannot convert float infinity to integer")
              | Option.some PFloat.nan => runDF df
              | Option.none => runDF df) = Except.ok v := h
          by_cases hs : s = ""
          · rw [if_pos hs] at h
            exact hdfc v h
          · rw [if_neg hs] at h
            cases hp : Parse.pyFloat s with
            | none => rw [hp] at h; exact hdfc v h
            | some pf =>
              rw [hp] at h
              cases pf with
              | finite q =>
                replace h : Except.ok (PyVal.int (ratTrunc q)) = Except.ok v := h
                rw [Except.ok.injEq] at h
                rw [← h]
                exact CanonV.intV df (ratTrunc q)
              | inf => cases h
              | neginf => cases h
              | nan => exact hdfc v h
        | bool b =>
          replace h : Except.ok (PyVal.int (if b then 1 else 0)) = Except.ok v := h
          rw [Except.ok.injEq] at h
          rw [← h]
          exact CanonV.intV df _
        | int k2 =>
          replace h : Except.ok (PyVal.int k2) = Except.ok v := h
          rw [Except.ok.injEq] at h
          rw [← h]
          exact CanonV.intV df k2
        | float q =>
          replace h : Except.ok (PyVal.int (ratTrunc q)) = Except.ok v := h
          rw [Except.ok.injEq] at h
          rw [← h]
          exact CanonV.intV df (ratTrunc q)
        | uuid u => exact hdfc v h
        | list xs => exact hdfc v h
        | dict xs => exact hdfc v h
        | ent ty a2 => exact hdfc v h
        | wrap c sv => exact hdfc v h
        | descr => exact hdfc v h
      | boolInt df =>
        have hdfc : ∀ w, runDF df = Except.ok w → CanonV env (FieldKind.boolInt df) w := hk
        cases a with
        | none => exact hdfc v h
        | bool b =>
          replace h : Except.ok (PyVal.int (if b then 1 else 0)) = Except.ok v := h
          rw [Except.ok.injEq] at h
          rw [← h]
          refine CanonV.boolV df _ ?_
          cases b with
          | false => exact Or.inl rfl
          | true => exact Or.inr rfl
        | int k2 =>
          replace h : Except.ok (PyVal.int (if k2 ≠ 0 then 1 else 0)) = Except.ok v := h
          rw [Except.ok.injEq] at h
          rw [← h]
          refine CanonV.boolV df _ ?_
          by_cases hz : k2 = 0
          · rw [if_neg (by simpa using hz)]
            exact Or.inl rfl
          · rw [if_pos hz]
            exact Or.inr rfl
        | float q => exact hdfc v h
        | str s => exact hdfc v h
        | uuid u => exact hdfc v h
        | list xs => exact hdfc v h
        | dict xs => exact hdfc v h
        | ent ty a2 => exact hdfc v h
        | wrap c sv => exact hdfc v h
        | descr => exact hdfc v h
      | strUuid df roe =>
        have hdfc : ∀ w, runDF df = Except.ok w →
          CanonV env (FieldKind.strUuid df roe) w := hk
        cases a with
        | none => exact hdfc v h
        | uuid u =>
          replace h : Except.ok (PyVal.uuid u) = Except.ok v := h
          rw [Except.ok.injEq] at h
          rw [← h]
          exact CanonV.uuidV df roe u
        | str s =>
          replace h : (if ¬ pyTruthy (PyVal.str s) then runDF df
            else match Parse.pyUuid s with
              | Option.some u => Except.ok (PyVal.uuid u)
              | Option.none =>
                if roe then Except.error (PyErr.exception (s ++ " is not valid UUID"))
                else runDF df) = Except.ok v := h
          by_cases ht : pyTruthy (PyVal.str s)
          · rw [if_neg (by simp [ht])] at h
            cases hp : Parse.pyUuid s with
            | some u =>
              rw [hp] at h
              replace h : Except.ok (PyVal.uuid u) = Except.ok v := h
              rw [Except.ok.injEq] at h
              rw [← h]
              exact CanonV.uuidV df roe u
            | none =>
              rw [hp] at h
              cases roe with
              | true => cases h
              | false => exact hdfc v h
          · rw [if_pos (by simpa using ht)] at h
            exact hdfc v h
        | bool b =>
          cases b with
          | false => exact hdfc v h
          | true => cases h
        | int k2 =>
          replace h : (if ¬ pyTruthy (PyVal.int k2) then runDF df
            else Except.error
              (PyErr.exception ("Unsupported type " ++ pyStr (PyVal.int k2)))) =
            Except.ok v := h
          by_cases ht : pyTruthy (PyVal.int k2)
          · rw [if_neg (by simp [ht])] at h
            cases h
          · rw [if_pos (by simpa using ht)] at h
            exact hdfc v h
        | float q =>
          replace h : (if ¬ pyTruthy (PyVal.float q) then runDF df
            else Except.error
              (PyErr.exception ("Unsupported type " ++ pyStr (PyVal.float q)))) =
            Except.ok v := h
          by_cases ht : pyTruthy (PyVal.float q)
          · rw [if_neg (by simp [ht])] at h
            cases h
          · rw [if_pos (by simpa using ht)] at h
            exact hdfc v h
        | list xs =>
          replace h : (if ¬ pyTruthy (PyVal.list xs) then runDF df
            else Except.error
              (PyErr.exception ("Unsupported type " ++ pyStr (PyVal.list xs)))) =
            Except.ok v := h
          by_cases ht : pyTruthy (PyVal.list xs)
          · rw [if_neg (by simp [ht])] at h
            cases h
          · rw [if_pos (by simpa using ht)] at h
            exact hdfc v h
        | dict xs =>
          replace h : (if ¬ pyTruthy (PyVal.dict xs) then runDF df
            else Except.error
              (PyErr.exception ("Unsupported type " ++ pyStr (PyVal.dict xs)))) =
            Except.ok v := h
          by_cases ht : pyTruthy (PyVal.dict xs)
          · rw [if_neg (by simp [ht])] at h
            cases h
          · rw [if_pos (by simpa using ht)] at h
            exact hdfc v h
        | ent ty a2 => cases h
        | wrap c sv => cases h
        | descr => exact hdfc v h
      | listInt df =>
        have hdfc : ∀ w, runDF df = Except.ok w →
          CanonV env (FieldKind.listInt df) w := hk
        cases a with
        | list xs =>
          replace h : Except.ok (PyVal.list (xs.filterMap pyIntOf)) = Except.ok v := h
          rw [Except.ok.injEq] at h
          rw [← h]
          exact CanonV.listIntV df _ (filterMap_pyIntOf_ints xs)
        | none => exact hdfc v h
        | bool b => exact hdfc v h
        | int k2 => exact hdfc v h
        | float q => exact hdfc v h
        | str s => exact hdfc v h
        | uuid u => exact hdfc v h
        | dict xs => exact hdfc v h
        | ent ty a2 => exact hdfc v h
        | wrap c sv => exact hdfc v h
        | descr => exact hdfc v h
      | listUuid df roe =>
        have hdfc : ∀ w, runDF df = Except.ok w →
          CanonV env (FieldKind.listUuid df roe) w := hk
        cases a with
        | list xs =>
          replace h : (match listUuidConv roe xs with
            | Except.ok ys => Except.ok (PyVal.list ys)
            | Except.error e => Except.error e) = Except.ok v := h
          cases hc : listUuidConv roe xs with
          | error e => rw [hc] at h; cases h
          | ok ys =>
            rw [hc] at h
            replace h : Except.ok (PyVal.list ys) = Except.ok v := h
            rw [Except.ok.injEq] at h
            rw [← h]
            exact CanonV.listUuidV df roe ys (listUuidConv_shape roe xs ys hc)
        | none => exact hdfc v h
        | bool b => exact hdfc v h
        | int k2 => exact hdfc v h
        | float q => exact hdfc v h
        | str s => exact hdfc v h
        | uuid u => exact hdfc v h
        | dict xs => exact hdfc v h
        | ent ty a2 => exact hdfc v h
        | wrap c sv => exact hdfc v h
        | descr => exact hdfc v h
      | strWrap cls df =>
        have hdfc : ∀ w, runDF df = Except.ok w →
          CanonV env (FieldKind.strWrap cls df) w := hk
        cases a with
        | none => exact hdfc v h
        | bool b =>
          cases b with
          | false => exact hdfc v h
          | true =>
            replace h : Except.ok (PyVal.wrap cls
              (Option.some (pyStr (PyVal.bool true)))) = Except.ok v := h
            rw [Except.ok.injEq] at h
            rw [← h]
            exact CanonV.wrapV cls df _
        | wrap c sv =>
          replace h : (if c = cls then Except.ok (PyVal.wrap c sv)
            else Except.ok (PyVal.wrap cls
              (Option.some (pyStr (PyVal.wrap c sv))))) = Except.ok v := h
          by_cases hc : c = cls
          · rw [if_pos hc] at h
            rw [Except.ok.injEq] at h
            rw [← h, hc]
            exact CanonV.wrapV cls df sv
          · rw [if_neg hc] at h
            rw [Except.ok.injEq] at h
            rw [← h]
            exact CanonV.wrapV cls df _
        | dict kw =>
          replace h : (if kw.isEmpty then Except.ok (PyVal.wrap cls Option.none)
            else Except.error
              (PyErr.typeError "object.__init__ takes no keyword arguments")) =
            Except.ok v := h
          by_cases hkw : kw.isEmpty
          · rw [if_pos hkw] at h
            rw [Except.ok.injEq] at h
            rw [← h]
            exact CanonV.wrapV cls df _
          · rw [if_neg hkw] at h
            cases h
        | int k2 =>
          replace h : Except.ok (PyVal.wrap cls
            (Option.some (pyStr (PyVal.int k2)))) = Except.ok v := h
          rw [Except.ok.injEq] at h
          rw [← h]
          exact CanonV.wrapV cls df _
        | float q =>
          replace h : Except.ok (PyVal.wrap cls
            (Option.some (pyStr (PyVal.float q)))) = Except.ok v := h
          rw [Except.ok.injEq] at h
          rw [← h]
          exact CanonV.wrapV cls df _
        | str s =>
          replace h : Except.ok (PyVal.wrap cls
            (Option.some (pyStr (PyVal.str s)))) = Except.ok v := h
          rw [Except.ok.injEq] at h
          rw [← h]
          exact CanonV.wrapV cls df _
        | uuid u =>
          replace h : Except.ok (PyVal.wrap cls
            (Option.some (pyStr (PyVal.uuid u)))) = Except.ok v := h
          rw [Except.ok.injEq] at h
          rw [← h]
          exact CanonV.wrapV cls df _
        | list xs =>
          replace h : Except.ok (PyVal.wrap cls
            (Option.some (pyStr (PyVal.list xs)))) = Except.ok v := h
          rw [Except.ok.injEq] at h
          rw [← h]
          exact CanonV.wrapV cls df _
        | ent ty a2 =>
          replace h : Except.ok (PyVal.wrap cls
            (Option.some (pyStr (PyVal.ent ty a2)))) = Except.ok v := h
          rw [Except.ok.injEq] at h
          rw [← h]
          exact CanonV.wrapV cls df _
        | descr =>
          replace h : Except.ok (PyVal.wrap cls
            (Option.some (pyStr PyVal.descr))) = Except.ok v := h
          rw [Except.ok.injEq] at h
          rw [← h]
          exact CanonV.wrapV cls df _
      | single cls df =>
        have hdfc : ∀ w, runDF df = Except.ok w →
          CanonV env (FieldKind.single cls df) w := hk
        cases a with
        | none => exact hdfc v h
        | dict kw =>
          replace h : (if ¬ pyTruthy (PyVal.dict kw) then runDF df
            else importE n env cls kw) = Except.ok v := h
          by_cases ht : pyTruthy (PyVal.dict kw)
          · rw [if_neg (by simp [ht])] at h
            have hkwf : entFreeP kw = true := by
              rcases hfr with hf1 | hf1
              · exact hf1
              · cases hf1
            exact CanonV.singleEntV cls df v (ihE cls kw v hkwf h)
          · rw [if_pos (by simpa using ht)] at h
            exact hdfc v h
        | ent ty a2 =>
          rcases hfr with hf1 | hf1
          · exact Bool.noConfusion hf1
          · cases hf1
        | bool b =>
          cases b with
          | false => exact hdfc v h
          | true => cases h
        | int k2 =>
          replace h : (if ¬ pyTruthy (PyVal.int k2) then runDF df
            else Except.error
              (PyErr.valueError ("Value must be a dict or a " ++ cls ++ " instance"))) =
            Except.ok v := h
          by_cases ht : pyTruthy (PyVal.int k2)
          · rw [if_neg (by simp [ht])] at h
            cases h
          · rw [if_pos (by simpa using ht)] at h
            exact hdfc v h
        | float q =>
          replace h : (if ¬ pyTruthy (PyVal.float q) then runDF df
            else Except.error
              (PyErr.valueError ("Value must be a dict or a " ++ cls ++ " instance"))) =
            Except.ok v := h
          by_cases ht : pyTruthy (PyVal.float q)
          · rw [if_neg (by simp [ht])] at h
            cases h
          · rw [if_pos (by simpa using ht)] at h
            exact hdfc v h
        | str s =>
          replace h : (if ¬ pyTruthy (PyVal.str s) then runDF df
            else Except.error
              (PyErr.valueError ("Value must be a dict or a " ++ cls ++ " instance"))) =
            Except.ok v := h
          by_cases ht : pyTruthy (PyVal.str s)
          · rw [if_neg (by simp [ht])] at h
            cases h
          · rw [if_pos (by simpa using ht)] at h
            exact hdfc v h
        | list xs =>
          replace h : (if ¬ pyTruthy (PyVal.list xs) then runDF df
            else Except.error
              (PyErr.valueError ("Value must be a dict or a " ++ cls ++ " instance"))) =
            Except.ok v := h
          by_cases ht : pyTruthy (PyVal.list xs)
          · rw [if_neg (by simp [ht])] at h
            cases h
          · rw [if_pos (by simpa using ht)] at h
            exact hdfc v h
        | uuid u => cases h
        | wrap c sv => cases h
        | descr => cases h
      | olist cls df =>
        have hdfc : ∀ w, runDF df = Except.ok w →
          CanonV env (FieldKind.olist cls df) w := hk
        cases a with
        | list xs =>
          replace h : (match olistConv n env cls xs with
            | Except.ok ys => Except.ok (PyVal.list ys)
            | Except.error e => Except.error e) = Except.ok v := h
          cases hc : olistConv n env cls xs with
          | error e => rw [hc] at h; cases h
          | ok ys =>
            rw [hc] at h
            replace h : Except.ok (PyVal.list ys) = Except.ok v := h
            rw [Except.ok.injEq] at h
            rw [← h]
            have hxf : entFreeL xs = true := by
              rcases hfr with hf1 | hf1
              · exact hf1
              · cases hf1
            exact CanonV.olistV cls df ys (ihL cls xs ys hxf hc)
        | none => exact hdfc v h
        | bool b => exact hdfc v h
        | int k2 => exact hdfc v h
        | float q => exact hdfc v h
        | str s => exact hdfc v h
        | uuid u => exact hdfc v h
        | dict xs => exact hdfc v h
        | ent ty a2 => exact hdfc v h
        | wrap c sv => exact hdfc v h
        | descr => exact hdfc v h
      | omap cls df =>
        have hdfc : ∀ w, runDF df = Except.ok w →
          CanonV env (FieldKind.omap cls df) w := hk
        cases a with
        | dict kvs =>
          replace h : (match omapConv n env cls kvs with
            | Except.ok ys => Except.ok (PyVal.dict ys)
            | Except.error e => Except.error e) = Except.ok v := h
          cases hc : omapConv n env cls kvs with
          | error e => rw [hc] at h; cases h
          | ok ys =>
            rw [hc] at h
            replace h : Except.ok (PyVal.dict ys) = Except.ok v := h
            rw [Except.ok.injEq] at h
            rw [← h]
            have hxf : entFreeP kvs = true := by
              rcases hfr with hf1 | hf1
              · exact hf1
              · cases hf1
            exact CanonV.omapV cls df ys (ihM cls kvs ys hxf hc)
        | none => exact hdfc v h
        | bool b => exact hdfc v h
        | int k2 => exact hdfc v h
        | float q => exact hdfc v h
        | str s => exact hdfc v h
        | uuid u => exact hdfc v h
        | list xs => exact hdfc v h
        | ent ty a2 => exact hdfc v h
        | wrap c sv => exact hdfc v h
        | descr => exact hdfc v h
    · intro cls xs ys hfr h
      cases xs with
      | nil =>
        replace h : (Except.ok [] : Except PyErr (List PyVal)) = Except.ok ys := h
        rw [Except.ok.injEq] at h
        rw [← h]
        exact CanonList.nil cls
      | cons x rest =>
        rw [show entFreeL (x :: rest) = (entFree x && entFreeL rest) from rfl,
          Bool.and_eq_true] at hfr
        cases x with
        | dict kw =>
          replace h : (match importE n env cls kw with
            | Except.error e => Except.error e
            | Except.ok y =>
              match olistConv n env cls rest with
              | Except.error e => Except.error e
              | Except.ok ys => Except.ok (y :: ys)) = Except.ok ys := h
          cases hi : importE n env cls kw with
          | error e => rw [hi] at h; cases h
          | ok y =>
            rw [hi] at h
            cases hc : olistConv n env cls rest with
            | error e => rw [hc] at h; cases h
            | ok ys2 =>
              rw [hc] at h
              rw [Except.ok.injEq] at h
              rw [← h]
              exact CanonList.cons cls y ys2 (ihE cls kw y hfr.1 hi)
                (ihL cls rest ys2 hfr.2 hc)
        | ent ty a2 => exact Bool.noConfusion hfr.1
        | none => exact ihL cls rest ys hfr.2 h
        | bool b => exact ihL cls rest ys hfr.2 h
        | int k2 => exact ihL cls rest ys hfr.2 h
        | float q => exact ihL cls rest ys hfr.2 h
        | str s => exact ihL cls rest ys hfr.2 h
        | uuid u => exact ihL cls rest ys hfr.2 h
        | list xs2 => exact ihL cls rest ys hfr.2 h
        | wrap c sv => exact ihL cls rest ys hfr.2 h
        | descr => exact ihL cls rest ys hfr.2 h
    · intro cls xs ys hfr h
      cases xs with
      | nil =>
        replace h : (Except.ok [] : Except PyErr (List (String × PyVal))) =
          Except.ok ys := h
        rw [Except.ok.injEq] at h
        rw [← h]
        exact CanonPairs.nil cls
      | cons hd rest =>
        obtain ⟨key, x⟩ := hd
        rw [show entFreeP ((key, x) :: rest) = (entFree x && entFreeP rest) from rfl,
          Bool.and_eq_true] at hfr
        cases x with
        | dict kw =>
          replace h : (match importE n env cls kw with
            | Except.error e => Except.error e
            | Except.ok y =>
              match omapConv n env cls rest with
              | Except.error e => Except.error e
              | Except.ok ys => Except.ok ((key, y) :: ys)) = Except.ok ys := h
          cases hi : importE n env cls kw with
          | error e => rw [hi] at h; cases h
          | ok y =>
            rw [hi] at h
            cases hc : omapConv n env cls rest with
            | error e => rw [hc] at h; cases h
            | ok ys2 =>
              rw [hc] at h
              rw [Except.ok.injEq] at h
              rw [← h]
              exact CanonPairs.cons cls key y ys2 (ihE cls kw y hfr.1 hi)
                (ihM cls rest ys2 hfr.2 hc)
        | ent ty a2 => exact Bool.noConfusion hfr.1
        | none => exact ihM cls rest ys hfr.2 h
        | bool b => exact ihM cls rest ys hfr.2 h
        | int k2 => exact ihM cls rest ys hfr.2 h
        | float q => exact ihM cls rest ys hfr.2 h
        | str s => exact ihM cls rest ys hfr.2 h
        | uuid u => exact ihM cls rest ys hfr.2 h
        | list xs2 => exact ihM cls rest ys hfr.2 h
        | wrap c sv => exact ihM cls rest ys hfr.2 h
        | descr => exact ihM cls rest ys hfr.2 h

theorem ints_entFreeL (xs : List PyVal) (h : ∀ x ∈ xs, ∃ n, x = PyVal.int n) :
    entFreeL xs = true := by
  induction xs with
  | nil => rfl
  | cons x rest ih =>
    obtain ⟨n, hn⟩ := h x (List.mem_cons_self ..)
    subst hn
    rw [show entFreeL (PyVal.int n :: rest) =
      (entFree (PyVal.int n) && entFreeL rest) from rfl,
      ih fun y hy => h y (List.mem_cons_of_mem _ hy)]
    rfl

theorem uuids_entFreeL (xs : List PyVal) (h : ∀ x ∈ xs, ∃ u, x = PyVal.uuid u) :
    entFreeL xs = true := by
  induction xs with
  | nil => rfl
  | cons x rest ih =>
    obtain ⟨u, hu⟩ := h x (List.mem_cons_self ..)
    subst hu
    rw [show entFreeL (PyVal.uuid u :: rest) =
      (entFree (PyVal.uuid u) && entFreeL rest) from rfl,
      ih fun y hy => h y (List.mem_cons_of_mem _ hy)]
    rfl

theorem canonFields_names (env : Env) :
    ∀ (fs : List (String × FieldKind)) (avs : List (String × PyVal)),
      CanonFields env fs avs → avs.map Prod.fst = fs.map Prod.fst := by
  intro fs
  induction fs with
  | nil =>
    intro avs hcf
    cases hcf
    rfl
  | cons hd rest ih =>
    intro avs hcf
    cases hcf with
    | cons name k v fs2 avs2 hv hrest =>
      simp only [List.map]
      rw [ih avs2 hrest]

theorem readAttr_canonical (env : Env) (k : FieldKind) (name : String)
    (avs0 : List (String × PyVal)) (v : PyVal) (hcv : CanonV env k v)
    (hlook : alookup avs0 name = Option.some v) :
    readAttr k name avs0 = Except.ok v := by
  cases hcv with
  | plainV d f v hfree hnone =>
    show (match alookup avs0 name with
      | Option.some w => Except.ok w
      | Option.none =>
        match d with
        | Option.some dv => Except.ok dv
        | Option.none => Except.error (PyErr.attributeError name)) = Except.ok v
    rw [hlook]
  | intV df n =>
    show (match alookup avs0 name with
      | Option.some w => if w.isNone then runDF df else Except.ok w
      | Option.none => runDF df) = Except.ok (PyVal.int n)
    rw [hlook]
    rfl
  | boolV df n hn =>
    show (match alookup avs0 name with
      | Option.some w => if w.isNone then runDF df else Except.ok w
      | Option.none => runDF df) = Except.ok (PyVal.int n)
    rw [hlook]
    rfl
  | uuidV df roe u =>
    show (match alookup avs0 name with
      | Option.some w => if w.isNone then runDF df else Except.ok w
      | Option.none => runDF df) = Except.ok (PyVal.uuid u)
    rw [hlook]
    rfl
  | listIntV df xs hxs =>
    show (match alookup avs0 name with
      | Option.some w => if w.isNone then runDF df else Except.ok w
      | Option.none => runDF df) = Except.ok (PyVal.list xs)
    rw [hlook]
    rfl
  | listUuidV df roe xs hxs =>
    show (match alookup avs0 name with
      | Option.some w => if w.isNone then runDF df else Except.ok w
      | Option.none => runDF df) = Except.ok (PyVal.list xs)
    rw [hlook]
    rfl
  | wrapV cls df sv =>
    show (match alookup avs0 name with
      | Option.some w => if w.isNone then runDF df else Except.ok w
      | Option.none => runDF df) = Except.ok (PyVal.wrap cls sv)
    rw [hlook]
    rfl
  | singleNoneV cls df hdf =>
    show (match alookup avs0 name with
      | Option.some w => Except.ok w
      | Option.none => runDF df) = Except.ok PyVal.none
    rw [hlook]
  | singleEntV cls df v hce =>
    show (match alookup avs0 name with
      | Option.some w => Except.ok w
      | Option.none => runDF df) = Except.ok v
    rw [hlook]
  | olistV cls df xs hxs =>
    show (match alookup avs0 name with
      | Option.some w => if w.isNone then runDF df else Except.ok w
      | Option.none => runDF df) = Except.ok (PyVal.list xs)
    rw [hlook]
    rfl
  | omapV cls df kvs hkvs =>
    show (match alookup avs0 name with
      | Option.some w => if w.isNone then runDF df else Except.ok w
      | Option.none => runDF df) = Except.ok (PyVal.dict kvs)
    rw [hlook]
    rfl

end DataclassHelpers

namespace DataclassHelpers

theorem exportRec_ent (n : Nat) (env : Env) (instTy : String) (st : Bool)
    (ty : String) (attrs : List (String × PyVal)) (T : EntityType)
    (hT : lookupTy env ty = Option.some T) :
    exportRec (Nat.succ n) env instTy st (PyVal.ent ty attrs) =
      (if T.hasToJson ∧ ty ≠ instTy then
        exportRec n env ty false (PyVal.ent ty attrs)
      else match exportEntFields n env instTy st attrs T.fields with
        | Except.ok l => Except.ok (PyVal.dict l)
        | Except.error e => Except.error e) := by
  simp only [exportRec]
  rw [hT]

theorem roundtrip_core (env : Env) (hwf : WFEnv env) : ∀ N : Nat,
    (∀ e ty, sizeOf e ≤ N → CanonEnt env ty e →
      ∀ instTy n j, exportRec n env instTy false e = Except.ok j →
        ∃ l, j = PyVal.dict l ∧
          (∃ T, lookupTy env ty = Option.some T ∧
            l.map Prod.fst = T.fields.map Prod.fst) ∧
          ∃ n2, importE n2 env ty l = Except.ok e) ∧
    (∀ v k, sizeOf v ≤ N → CanonV env k v →
      ∀ instTy n j, exportRec n env instTy false v = Except.ok j →
        (k = FieldKind.plain Option.none Option.none → j ≠ PyVal.none) ∧
        ∃ n2, ∀ name m0, alookup m0 name = Option.some j →
          importFieldVal n2 env m0 name k = Except.ok v) ∧
    (∀ fs avs, sizeOf avs ≤ N → CanonFields env fs avs →
      (fs.map Prod.fst).Nodup →
      ∀ avs0, (∀ p ∈ avs, alookup avs0 p.1 = Option.some p.2) →
      ∀ instTy n l, exportEntFields n env instTy false avs0 fs = Except.ok l →
        l.map Prod.fst = fs.map Prod.fst ∧
        (∀ name, (name, FieldKind.plain Option.none Option.none) ∈ fs →
          ∃ jv, alookup l name = Option.some jv ∧ jv ≠ PyVal.none) ∧
        ∃ n2, ∀ m0, (∀ p ∈ l, alookup m0 p.1 = Option.some p.2) →
          importFields n2 env m0 fs = Except.ok avs) ∧
    (∀ xs cls, sizeOf xs ≤ N → CanonList env cls xs →
      ∀ instTy n ys, exportList n env instTy false xs = Except.ok ys →
        ∃ n2, olistConv n2 env cls ys = Except.ok xs) ∧
    (∀ kvs cls, sizeOf kvs ≤ N → CanonPairs env cls kvs →
      ∀ instTy n ys, exportPairs n env instTy false kvs = Except.ok ys →
        ∃ n2, omapConv n2 env cls ys = Except.ok kvs) := by
  intro N
  induction N with
  | zero =>
    refine ⟨?_, ?_, ?_, ?_, ?_⟩
    · intro e ty hsz hce
      exfalso
      cases hce with
      | mk ty T attrs hT hcf => simp at hsz
    · intro v k hsz hcv
      exfalso
      cases v <;> simp at hsz
    · intro fs avs hsz hcf
      exfalso
      cases avs <;> simp at hsz
    · intro xs cls hsz hcl
      exfalso
      cases xs <;> simp at hsz
    · intro kvs cls hsz hcp
      exfalso
      cases kvs <;> simp at hsz
  | succ N ihN =>
    obtain ⟨ih1, ih2, ih3, ih4, ih5⟩ := ihN
    have p1 : ∀ e ty, sizeOf e ≤ Nat.succ N → CanonEnt env ty e →
        ∀ instTy n j, exportRec n env instTy false e = Except.ok j →
          ∃ l, j = PyVal.dict l ∧
            (∃ T, lookupTy env ty = Option.some T ∧
              l.map Prod.fst = T.fields.map Prod.fst) ∧
            ∃ n2, importE n2 env ty l = Except.ok e := by
      intro e ty hsz hce instTy n j hexp
      cases hce with
      | mk ty T attrs hT hcf =>
        have hsza : sizeOf attrs ≤ N := by simp at hsz; omega
        have hndT : (T.fields.map Prod.fst).Nodup := (hwf ty T hT).1
        have hlookself : ∀ p ∈ attrs, alookup attrs p.1 = Option.some p.2 := by
          apply alookup_self_of_nodup
          rw [canonFields_names env T.fields attrs hcf]
          exact hndT
        have hmain : ∀ n3 instTy3 l,
            exportEntFields n3 env instTy3 false attrs T.fields = Except.ok l →
            PyVal.dict l = j →
            ∃ l2, j = PyVal.dict l2 ∧
              (∃ T2, lookupTy env ty = Option.some T2 ∧
                l2.map Prod.fst = T2.fields.map Prod.fst) ∧
              ∃ n2, importE n2 env ty l2 = Except.ok (PyVal.ent ty attrs) := by
          intro n3 instTy3 l hef hj
          obtain ⟨hnames, hreqv, n4, himp⟩ :=
            ih3 T.fields attrs hsza hcf hndT attrs hlookself instTy3 n3 l hef
          refine ⟨l, hj.symm, ⟨T, hT, hnames⟩, Nat.succ n4, ?_⟩
          rw [importE_succ_some n4 env ty l T hT]
          rw [if_pos (requiredMissing_nil T l hreqv)]
          rw [himp l (alookup_self_of_nodup l (by rw [hnames]; exact hndT))]
        cases n with
        | zero => cases hexp
        | succ n1 =>
          rw [exportRec_ent n1 env instTy false ty attrs T hT] at hexp
          by_cases hgd : T.hasToJson ∧ ty ≠ instTy
          · rw [if_pos hgd] at hexp
            cases n1 with
            | zero => cases hexp
            | succ n2 =>
              rw [exportRec_ent n2 env ty false ty attrs T hT] at hexp
              rw [if_neg (by simp)] at hexp
              cases hef : exportEntFields n2 env ty false attrs T.fields with
              | error e => rw [hef] at hexp; cases hexp
              | ok l =>
                rw [hef] at hexp
                replace hexp : Except.ok (PyVal.dict l) = Except.ok j := hexp
                injection hexp with hdl
                exact hmain n2 ty l hef hdl
          · rw [if_neg hgd] at hexp
            cases hef : exportEntFields n1 env instTy false attrs T.fields with
            | error e => rw [hef] at hexp; cases hexp
            | ok l =>
              rw [hef] at hexp
              replace hexp : Except.ok (PyVal.dict l) = Except.ok j := hexp
              injection hexp with hdl
              exact hmain n1 instTy l hef hdl
    have p2 : ∀ v k, sizeOf v ≤ Nat.succ N → CanonV env k v →
        ∀ instTy n j, exportRec n env instTy false v = Except.ok j →
          (k = FieldKind.plain Option.none Option.none → j ≠ PyVal.none) ∧
          ∃ n2, ∀ name m0, alookup m0 name = Option.some j →
            importFieldVal n2 env m0 name k = Except.ok v := by
      intro v k hsz hcv instTy n j hexp
      cases hcv with
      | plainV d f v hfree hnone =>
        have hjv : j = v := (export_entfree env instTy n).1 v j hfree hexp
        constructor
        · intro he hj0
          injection he with hd hf
          subst hd
          subst hf
          rw [hjv] at hj0
          exact absurd
            (show (Option.none : Option PyVal) = Option.some PyVal.none from hnone hj0)
            (by simp)
        · refine ⟨1, ?_⟩
          intro name m0 hm0
          have h1 : importFieldVal 1 env m0 name (FieldKind.plain d f) =
              Except.ok (importPlainVal d f (pyGet m0 name)) := rfl
          have hpg : pyGet m0 name = v := by simp [pyGet, hm0, hjv]
          rw [h1, hpg]
          have hip : importPlainVal d f v = v := by
            cases f with
            | some fn =>
              show (if v.isNone then fn () else v) = v
              by_cases hvn : v.isNone
              · have hv0 := (isNone_true_iff v).mp hvn
                have hfn : fn () = PyVal.none := hnone hv0
                rw [if_pos hvn, hfn, hv0]
              · rw [if_neg hvn]
            | none =>
              cases d with
              | some dv =>
                show (if v.isNone then dv else v) = v
                by_cases hvn : v.isNone
                · have hv0 := (isNone_true_iff v).mp hvn
                  have hd : Option.some dv = Option.some PyVal.none := hnone hv0
                  injection hd with hd2
                  rw [if_pos hvn, hd2, hv0]
                · rw [if_neg hvn]
              | none =>
                show (if v.isNone then PyVal.none else v) = v
                by_cases hvn : v.isNone
                · rw [if_pos hvn, (isNone_true_iff v).mp hvn]
                · rw [if_neg hvn]
          rw [hip]
      | intV df ni =>
        have hjv : j = PyVal.int ni :=
          (export_entfree env instTy n).1 (PyVal.int ni) j rfl hexp
        constructor
        · intro he
          exact FieldKind.noConfusion he
        · refine ⟨2, ?_⟩
          intro name m0 hm0
          have hpg : pyGet m0 name = PyVal.int ni := by simp [pyGet, hm0, hjv]
          have h1 : importFieldVal 2 env m0 name (FieldKind.intStr df) =
              setField 1 env (FieldKind.intStr df)
                (if (pyGet m0 name).isNone then PyVal.descr else pyGet m0 name) := rfl
          rw [h1, hpg]
          rfl
      | boolV df ni hni =>
        have hjv : j = PyVal.int ni :=
          (export_entfree env instTy n).1 (PyVal.int ni) j rfl hexp
        constructor
        · intro he
          exact FieldKind.noConfusion he
        · refine ⟨2, ?_⟩
          intro name m0 hm0
          have hpg : pyGet m0 name = PyVal.int ni := by simp [pyGet, hm0, hjv]
          have h1 : importFieldVal 2 env m0 name (FieldKind.boolInt df) =
              setField 1 env (FieldKind.boolInt df)
                (if (pyGet m0 name).isNone then PyVal.descr else pyGet m0 name) := rfl
          rw [h1, hpg]
          rcases hni with h0 | h0 <;> subst h0 <;> rfl
      | uuidV df roe u =>
        have hjv : j = PyVal.uuid u :=
          (export_entfree env instTy n).1 (PyVal.uuid u) j rfl hexp
        constructor
        · intro he
          exact FieldKind.noConfusion he
        · refine ⟨2, ?_⟩
          intro name m0 hm0
          have hpg : pyGet m0 name = PyVal.uuid u := by simp [pyGet, hm0, hjv]
          have h1 : importFieldVal 2 env m0 name (FieldKind.strUuid df roe) =
              setField 1 env (FieldKind.strUuid df roe)
                (if (pyGet m0 name).isNone then PyVal.descr else pyGet m0 name) := rfl
          rw [h1, hpg]
          rfl
      | listIntV df xs hxs =>
        have hjv : j = PyVal.list xs :=
          (export_entfree env instTy n).1 (PyVal.list xs) j
            (by rw [show entFree (PyVal.list xs) = entFreeL xs from rfl]
                exact ints_entFreeL xs hxs) hexp
        constructor
        · intro he
          exact FieldKind.noConfusion he
        · refine ⟨2, ?_⟩
          intro name m0 hm0
          have hpg : pyGet m0 name = PyVal.list xs := by simp [pyGet, hm0, hjv]
          have h1 : importFieldVal 2 env m0 name (FieldKind.listInt df) =
              setField 1 env (FieldKind.listInt df)
                (if (pyGet m0 name).isNone then PyVal.descr else pyGet m0 name) := rfl
          rw [h1, hpg]
          show setField 1 env (FieldKind.listInt df) (PyVal.list xs) =
            Except.ok (PyVal.list xs)
          rw [show setField 1 env (FieldKind.listInt df) (PyVal.list xs) =
            Except.ok (PyVal.list (xs.filterMap pyIntOf)) from rfl,
            filterMap_pyIntOf_id xs hxs]
      | listUuidV df roe xs hxs =>
        have hjv : j = PyVal.list xs :=
          (export_entfree env instTy n).1 (PyVal.list xs) j
            (by rw [show entFree (PyVal.list xs) = entFreeL xs from rfl]
                exact uuids_entFreeL xs hxs) hexp
        constructor
        · intro he
          exact FieldKind.noConfusion he
        · refine ⟨2, ?_⟩
          intro name m0 hm0
          have hpg : pyGet m0 name = PyVal.list xs := by simp [pyGet, hm0, hjv]
          have h1 : importFieldVal 2 env m0 name (FieldKind.listUuid df roe) =
              setField 1 env (FieldKind.listUuid df roe)
                (if (pyGet m0 name).isNone then PyVal.descr else pyGet m0 name) := rfl
          rw [h1, hpg]
          show setField 1 env (FieldKind.listUuid df roe) (PyVal.list xs) =
            Except.ok (PyVal.list xs)
          rw [show setField 1 env (FieldKind.listUuid df roe) (PyVal.list xs) =
            (match listUuidConv roe xs with
             | Except.ok ys => Except.ok (PyVal.list ys)
             | Except.error e => Except.error e) from rfl,
            listUuidConv_uuid_id roe xs hxs]
      | wrapV cls df sv =>
        have hjv : j = PyVal.wrap cls sv :=
          (export_entfree env instTy n).1 (PyVal.wrap cls sv) j rfl hexp
        constructor
        · intro he
          exact FieldKind.noConfusion he
        · refine ⟨2, ?_⟩
          intro name m0 hm0
          have hpg : pyGet m0 name = PyVal.wrap cls sv := by simp [pyGet, hm0, hjv]
          have h1 : importFieldVal 2 env m0 name (FieldKind.strWrap cls df) =
              setField 1 env (FieldKind.strWrap cls df)
                (if (pyGet m0 name).isNone then PyVal.descr else pyGet m0 name) := rfl
          rw [h1, hpg]
          show setField 1 env (FieldKind.strWrap cls df) (PyVal.wrap cls sv) =
            Except.ok (PyVal.wrap cls sv)
          rw [show setField 1 env (FieldKind.strWrap cls df) (PyVal.wrap cls sv) =
            (if cls = cls then Except.ok (PyVal.wrap cls sv)
             else Except.ok (PyVal.wrap cls (Option.some (pyStr (PyVal.wrap cls sv)))))
            from rfl, if_pos rfl]
      | singleNoneV cls df hdf =>
        have hjv : j = PyVal.none :=
          (export_entfree env instTy n).1 PyVal.none j rfl hexp
        constructor
        · intro he
          exact FieldKind.noConfusion he
        · refine ⟨2, ?_⟩
          intro name m0 hm0
          have him : importArg name m0 = PyVal.none := by simp [importArg, hm0, hjv]
          have h1 : importFieldVal 2 env m0 name (FieldKind.single cls df) =
              setField 1 env (FieldKind.single cls df) (importArg name m0) := rfl
          rw [h1, him]
          rw [show setField 1 env (FieldKind.single cls df) PyVal.none = runDF df from rfl]
          exact hdf
      | singleEntV cls df v2 hce =>
        obtain ⟨l, hjl, hTn, n2, himp⟩ := p1 v cls hsz hce instTy n j hexp
        obtain ⟨T2, hT2, hnames⟩ := hTn
        have hfne : T2.fields ≠ [] := (hwf cls T2 hT2).2.1
        have hlne : l ≠ [] := by
          intro h0
          subst h0
          cases hf2 : T2.fields with
          | nil => exact hfne hf2
          | cons a b => rw [hf2] at hnames; simp at hnames
        constructor
        · intro he
          exact FieldKind.noConfusion he
        · refine ⟨n2 + 2, ?_⟩
          intro name m0 hm0
          have him : importArg name m0 = PyVal.dict l := by simp [importArg, hm0, hjl]
          have h1 : importFieldVal (n2 + 2) env m0 name (FieldKind.single cls df) =
              setField (n2 + 1) env (FieldKind.single cls df) (importArg name m0) := rfl
          rw [h1, him]
          have ht : pyTruthy (PyVal.dict l) = true := by
            rw [show pyTruthy (PyVal.dict l) = !l.isEmpty from rfl]
            cases l with
            | nil => exact absurd rfl hlne
            | cons a b => rfl
          have h2 : setField (n2 + 1) env (FieldKind.single cls df) (PyVal.dict l) =
              (if ¬ pyTruthy (PyVal.dict l) then runDF df
               else importE n2 env cls l) := rfl
          rw [h2, if_neg (by simp [ht])]
          exact himp
      | olistV cls df xs hcl =>
        have hszl : sizeOf xs ≤ N := by simp at hsz; omega
        constructor
        · intro he
          exact FieldKind.noConfusion he
        · cases n with
          | zero => cases hexp
          | succ n1 =>
            replace hexp : (match exportList n1 env instTy false xs with
              | Except.ok ys => Except.ok (PyVal.list ys)
              | Except.error e => Except.error e) = Except.ok j := hexp
            cases hel : exportList n1 env instTy false xs with
            | error e => rw [hel] at hexp; cases hexp
            | ok ys =>
              rw [hel] at hexp
              replace hexp : Except.ok (PyVal.list ys) = Except.ok j := hexp
              injection hexp with hjy
              obtain ⟨n2, hconv⟩ := ih4 xs cls hszl hcl instTy n1 ys hel
              refine ⟨n2 + 2, ?_⟩
              intro name m0 hm0
              have him : importArg name m0 = PyVal.list ys := by
                simp [importArg, hm0, ← hjy]
              have h1 : importFieldVal (n2 + 2) env m0 name (FieldKind.olist cls df) =
                  setField (n2 + 1) env (FieldKind.olist cls df) (importArg name m0) := rfl
              rw [h1, him]
              have h2 : setField (n2 + 1) env (FieldKind.olist cls df) (PyVal.list ys) =
                  (match olistConv n2 env cls ys with
                   | Except.ok zs => Except.ok (PyVal.list zs)
                   | Except.error e => Except.error e) := rfl
              rw [h2, hconv]
      | omapV cls df kvs hcp =>
        have hszl : sizeOf kvs ≤ N := by simp at hsz; omega
        constructor
        · intro he
          exact FieldKind.noConfusion he
        · cases n with
          | zero => cases hexp
          | succ n1 =>
            replace hexp : (match exportPairs n1 env instTy false kvs with
              | Except.ok ys => Except.ok (PyVal.dict ys)
              | Except.error e => Except.error e) = Except.ok j := hexp
            cases hel : exportPairs n1 env instTy false kvs with
            | error e => rw [hel] at hexp; cases hexp
            | ok ys =>
              rw [hel] at hexp
              replace hexp : Except.ok (PyVal.dict ys) = Except.ok j := hexp
              injection hexp with hjy
              obtain ⟨n2, hconv⟩ := ih5 kvs cls hszl hcp instTy n1 ys hel
              refine ⟨n2 + 2, ?_⟩
              intro name m0 hm0
              have him : importArg name m0 = PyVal.dict ys := by
                simp [importArg, hm0, ← hjy]
              have h1 : importFieldVal (n2 + 2) env m0 name (FieldKind.omap cls df) =
                  setField (n2 + 1) env (FieldKind.omap cls df) (importArg name m0) := rfl
              rw [h1, him]
              have h2 : setField (n2 + 1) env (FieldKind.omap cls df) (PyVal.dict ys) =
                  (match omapConv n2 env cls ys with
                   | Except.ok zs => Except.ok (PyVal.dict zs)
                   | Except.error e => Except.error e) := rfl
              rw [h2, hconv]
    have p3 : ∀ fs avs, sizeOf avs ≤ Nat.succ N → CanonFields env fs avs →
        (fs.map Prod.fst).Nodup →
        ∀ avs0, (∀ p ∈ avs, alookup avs0 p.1 = Option.some p.2) →
        ∀ instTy n l, exportEntFields n env instTy false avs0 fs = Except.ok l →
          l.map Prod.fst = fs.map Prod.fst ∧
          (∀ name, (name, FieldKind.plain Option.none Option.none) ∈ fs →
            ∃ jv, alookup l name = Option.some jv ∧ jv ≠ PyVal.none) ∧
          ∃ n2, ∀ m0, (∀ p ∈ l, alookup m0 p.1 = Option.some p.2) →
            importFields n2 env m0 fs = Except.ok avs := by
      intro fs
      induction fs with
      | nil =>
        intro avs hsz hcf hnd avs0 hlook instTy n l hexp
        cases hcf
        cases n with
        | zero => cases hexp
        | succ n1 =>
          replace hexp : Except.ok ([] : List (String × PyVal)) = Except.ok l := hexp
          injection hexp with hl
          subst hl
          refine ⟨rfl, ?_, 1, ?_⟩
          · intro name hmem
            simp at hmem
          · intro m0 hm0
            rfl
      | cons hd rest ihfs =>
        obtain ⟨name0, k0⟩ := hd
        intro avs hsz hcf hnd avs0 hlook instTy n l hexp
        cases hcf with
        | cons name k v0 fs2 avs2 hv0 hrest =>
          cases n with
          | zero => cases hexp
          | succ n1 =>
            replace hexp : (match readAttr k0 name0 avs0 with
              | Except.error e => Except.error e
              | Except.ok w =>
                match exportRec n1 env instTy false w with
                | Except.error e => Except.error e
                | Except.ok j0 =>
                  match exportEntFields n1 env instTy false avs0 rest with
                  | Except.error e => Except.error e
                  | Except.ok l2 => Except.ok ((name0, j0) :: l2)) = Except.ok l := hexp
            have hlk0 : alookup avs0 name0 = Option.some v0 :=
              hlook (name0, v0) (List.mem_cons_self ..)
            have hra : readAttr k0 name0 avs0 = Except.ok v0 :=
              readAttr_canonical env k0 name0 avs0 v0 hv0 hlk0
            rw [hra] at hexp
            replace hexp : (match exportRec n1 env instTy false v0 with
              | Except.error e => Except.error e
              | Except.ok j0 =>
                match exportEntFields n1 env instTy false avs0 rest with
                | Except.error e => Except.error e
                | Except.ok l2 => Except.ok ((name0, j0) :: l2)) = Except.ok l := hexp
            cases hej : exportRec n1 env instTy false v0 with
            | error e => rw [hej] at hexp; cases hexp
            | ok j0 =>
              rw [hej] at hexp
              replace hexp : (match exportEntFields n1 env instTy false avs0 rest with
                | Except.error e => Except.error e
                | Except.ok l2 => Except.ok ((name0, j0) :: l2)) = Except.ok l := hexp
              cases hel : exportEntFields n1 env instTy false avs0 rest with
              | error e => rw [hel] at hexp; cases hexp
              | ok l2 =>
                rw [hel] at hexp
                replace hexp : Except.ok ((name0, j0) :: l2) = Except.ok l := hexp
                injection hexp with hl
                subst hl
                have hszv : sizeOf v0 ≤ Nat.succ N := by simp at hsz; omega
                have hsz2 : sizeOf avs2 ≤ Nat.succ N := by simp at hsz; omega
                obtain ⟨hne0, n2h, himpv⟩ := p2 v0 k0 hszv hv0 instTy n1 j0 hej
                have hndc : (name0 :: rest.map Prod.fst).Nodup := hnd
                have hnotin : name0 ∉ rest.map Prod.fst := (List.nodup_cons.mp hndc).1
                have hndr : (rest.map Prod.fst).Nodup := (List.nodup_cons.mp hndc).2
                obtain ⟨hnames2, hreq2, n2r, himpr⟩ :=
                  ihfs avs2 hsz2 hrest hndr avs0
                    (fun p hp => hlook p (List.mem_cons_of_mem _ hp)) instTy n1 l2 hel
                refine ⟨?_, ?_, ?_⟩
                · show name0 :: l2.map Prod.fst = name0 :: rest.map Prod.fst
                  rw [hnames2]
                · intro name hmem
                  rcases List.mem_cons.mp hmem with hh | ht
                  · injection hh with hn hk
                    refine ⟨j0, ?_, hne0 hk.symm⟩
                    rw [hn]
                    show (if name0 = name0 then Option.some j0 else alookup l2 name0) =
                      Option.some j0
                    rw [if_pos rfl]
                  · obtain ⟨jv, hjl, hjn⟩ := hreq2 name ht
                    have hne : name ≠ name0 := by
                      intro h0
                      subst h0
                      exact hnotin (List.mem_map.mpr
                        ⟨(name, FieldKind.plain Option.none Option.none), ht, rfl⟩)
                    refine ⟨jv, ?_, hjn⟩
                    show (if name0 = name then Option.some j0 else alookup l2 name) =
                      Option.some jv
                    rw [if_neg (fun h => hne h.symm)]
                    exact hjl
                · refine ⟨Nat.succ (max n2h n2r), ?_⟩
                  intro m0 hm0
                  have hunf : importFields (Nat.succ (max n2h n2r)) env m0
                      ((name0, k0) :: rest) =
                    (match importFieldVal (max n2h n2r) env m0 name0 k0 with
                     | Except.error e => Except.error e
                     | Except.ok w =>
                       match importFields (max n2h n2r) env m0 rest with
                       | Except.error e => Except.error e
                       | Except.ok attrs => Except.ok ((name0, w) :: attrs)) := rfl
                  have hv0i : importFieldVal (max n2h n2r) env m0 name0 k0 =
                      Except.ok v0 :=
                    importFieldVal_le env n2h (max n2h n2r) (Nat.le_max_left ..)
                      m0 name0 k0 v0
                      (himpv name0 m0 (hm0 (name0, j0) (List.mem_cons_self ..)))
                  have hri : importFields (max n2h n2r) env m0 rest = Except.ok avs2 :=
                    importFields_le env n2r (max n2h n2r) (Nat.le_max_right ..)
                      m0 rest avs2
                      (himpr m0 (fun p hp => hm0 p (List.mem_cons_of_mem _ hp)))
                  rw [hunf, hv0i, hri]
    have p4 : ∀ xs cls, sizeOf xs ≤ Nat.succ N → CanonList env cls xs →
        ∀ instTy n ys, exportList n env instTy false xs = Except.ok ys →
          ∃ n2, olistConv n2 env cls ys = Except.ok xs := by
      intro xs
      induction xs with
      | nil =>
        intro cls hsz hcl instTy n ys hexp
        cases n with
        | zero => cases hexp
        | succ n1 =>
          replace hexp : Except.ok ([] : List PyVal) = Except.ok ys := hexp
          injection hexp with hy
          subst hy
          exact ⟨1, rfl⟩
      | cons x rest ihxs =>
        intro cls hsz hcl instTy n ys hexp
        cases hcl with
        | cons cls2 x2 xs2 hx hrest =>
          cases n with
          | zero => cases hexp
          | succ n1 =>
            replace hexp : (match exportRec n1 env instTy false x with
              | Except.error e => Except.error e
              | Except.ok y =>
                match exportList n1 env instTy false rest with
                | Except.error e => Except.error e
                | Except.ok ys2 => Except.ok (y :: ys2)) = Except.ok ys := hexp
            cases hej : exportRec n1 env instTy false x with
            | error e => rw [hej] at hexp; cases hexp
            | ok y =>
              rw [hej] at hexp
              replace hexp : (match exportList n1 env instTy false rest with
                | Except.error e => Except.error e
                | Except.ok ys2 => Except.ok (y :: ys2)) = Except.ok ys := hexp
              cases hel : exportList n1 env instTy false rest with
              | error e => rw [hel] at hexp; cases hexp
              | ok ys2 =>
                rw [hel] at hexp
                replace hexp : Except.ok (y :: ys2) = Except.ok ys := hexp
                injection hexp with hy
                subst hy
                have hszx : sizeOf x ≤ Nat.succ N := by simp at hsz; omega
                have hszr : sizeOf rest ≤ Nat.succ N := by simp at hsz; omega
                obtain ⟨l, hyl, hTn, n2x, himpx⟩ := p1 x cls hszx hx instTy n1 y hej
                obtain ⟨n2r, hconvr⟩ := ihxs cls hszr hrest instTy n1 ys2 hel
                subst hyl
                refine ⟨Nat.succ (max n2x n2r), ?_⟩
                have hunf : olistConv (Nat.succ (max n2x n2r)) env cls
                    (PyVal.dict l :: ys2) =
                  (match importE (max n2x n2r) env cls l with
                   | Except.error e => Except.error e
                   | Except.ok z =>
                     match olistConv (max n2x n2r) env cls ys2 with
                     | Except.error e => Except.error e
                     | Except.ok zs => Except.ok (z :: zs)) := rfl
                rw [hunf,
                  importE_le env n2x (max n2x n2r) (Nat.le_max_left ..) cls l x himpx,
                  olistConv_le env n2r (max n2x n2r) (Nat.le_max_right ..)
                    cls ys2 rest hconvr]
    have p5 : ∀ kvs cls, sizeOf kvs ≤ Nat.succ N → CanonPairs env cls kvs →
        ∀ instTy n ys, exportPairs n env instTy false kvs = Except.ok ys →
          ∃ n2, omapConv n2 env cls ys = Except.ok kvs := by
      intro kvs
      induction kvs with
      | nil =>
        intro cls hsz hcp instTy n ys hexp
        cases n with
        | zero => cases hexp
        | succ n1 =>
          replace hexp : Except.ok ([] : List (String × PyVal)) = Except.ok ys := hexp
          injection hexp with hy
          subst hy
          exact ⟨1, rfl⟩
      | cons kv rest ihkv =>
        obtain ⟨key, x⟩ := kv
        intro cls hsz hcp instTy n ys hexp
        cases hcp with
        | cons cls2 key2 x2 xs2 hx hrest =>
          cases n with
          | zero => cases hexp
          | succ n1 =>
            replace hexp : (match exportRec n1 env instTy false x with
              | Except.error e => Except.error e
              | Except.ok y =>
                match exportPairs n1 env instTy false rest with
                | Except.error e => Except.error e
                | Except.ok ys2 => Except.ok ((key, y) :: ys2)) = Except.ok ys := hexp
            cases hej : exportRec n1 env instTy false x with
            | error e => rw [hej] at hexp; cases hexp
            | ok y =>
              rw [hej] at hexp
              replace hexp : (match exportPairs n1 env instTy false rest with
                | Except.error e => Except.error e
                | Except.ok ys2 => Except.ok ((key, y) :: ys2)) = Except.ok ys := hexp
              cases hel : exportPairs n1 env instTy false rest with
              | error e => rw [hel] at hexp; cases hexp
              | ok ys2 =>
                rw [hel] at hexp
                replace hexp : Except.ok ((key, y) :: ys2) = Except.ok ys := hexp
                injection hexp with hy
                subst hy
                have hszx : sizeOf x ≤ Nat.succ N := by simp at hsz; omega
                have hszr : sizeOf rest ≤ Nat.succ N := by simp at hsz; omega
                obtain ⟨l, hyl, hTn, n2x, himpx⟩ := p1 x cls hszx hx instTy n1 y hej
                obtain ⟨n2r, hconvr⟩ := ihkv cls hszr hrest instTy n1 ys2 hel
                subst hyl
                refine ⟨Nat.succ (max n2x n2r), ?_⟩
                have hunf : omapConv (Nat.succ (max n2x n2r)) env cls
                    ((key, PyVal.dict l) :: ys2) =
                  (match importE (max n2x n2r) env cls l with
                   | Except.error e => Except.error e
                   | Except.ok z =>
                     match omapConv (max n2x n2r) env cls ys2 with
                     | Except.error e => Except.error e
                     | Except.ok zs => Except.ok ((key, z) :: zs)) := rfl
                rw [hunf,
                  importE_le env n2x (max n2x n2r) (Nat.le_max_left ..) cls l x himpx,
                  omapConv_le env n2r (max n2x n2r) (Nat.le_max_right ..)
                    cls ys2 rest hconvr]
    exact ⟨p1, p2, p3, p4, p5⟩

/-- The concrete well-formed environment envWF satisfies WFEnv: both of
its classes have distinct attribute names, a nonempty field list, and
default sources producing canonical values. -/
theorem envWF_wf : WFEnv envWF := by
  intro ty T hT
  replace hT : (if "P" = ty then
      Option.some (⟨[("x", FieldKind.intStr dfInt0),
        ("child", FieldKind.single "Q" dfNone)], false⟩ : EntityType)
    else if "Q" = ty then
      Option.some (⟨[("y", FieldKind.intStr dfInt0)], false⟩ : EntityType)
    else Option.none) = Option.some T := hT
  by_cases hP : "P" = ty
  · rw [if_pos hP] at hT
    injection hT with hT2
    subst hT2
    refine ⟨by decide, by simp, ?_⟩
    intro p hp
    rcases List.mem_cons.mp hp with h | h
    · subst h
      show DFCanon envWF (FieldKind.intStr dfInt0)
      intro v hv
      replace hv : Except.ok (PyVal.int 0) = Except.ok v := hv
      injection hv with hv2
      subst hv2
      exact CanonV.intV dfInt0 0
    · rcases List.mem_cons.mp h with h2 | h2
      · subst h2
        show DFCanon envWF (FieldKind.single "Q" dfNone)
        intro v hv
        replace hv : Except.ok PyVal.none = Except.ok v := hv
        injection hv with hv2
        subst hv2
        exact CanonV.singleNoneV "Q" dfNone rfl
      · simp at h2
  · rw [if_neg hP] at hT
    by_cases hQ : "Q" = ty
    · rw [if_pos hQ] at hT
      injection hT with hT2
      subst hT2
      refine ⟨by decide, by simp, ?_⟩
      intro p hp
      rcases List.mem_cons.mp hp with h | h
      · subst h
        show DFCanon envWF (FieldKind.intStr dfInt0)
        intro v hv
        replace hv : Except.ok (PyVal.int 0) = Except.ok v := hv
        injection hv with hv2
        subst hv2
        exact CanonV.intV dfInt0 0
      · simp at h
    · rw [if_neg hQ] at hT
      cases hT

/-- C3 (amended): in a well-formed class environment — every resolvable
class declares at least one attribute, with distinct names and default
sources yielding canonical values — importing an entity-object-free
mapping and then exporting the result with to_json yields a dict that
imports back to exactly the same entity object, for some fuel. -/
theorem roundtrip_of_import (env : Env) (hwf : WFEnv env) (ty : String)
    (m : List (String × PyVal)) (hm : entFreeP m = true)
    (attrs : List (String × PyVal)) (j : PyVal) (n1 n2 : Nat)
    (himp : importE n1 env ty m = Except.ok (PyVal.ent ty attrs))
    (hexp : toJsonE n2 env false ty attrs = Except.ok j) :
    ∃ l, j = PyVal.dict l ∧
      ∃ n3, importE n3 env ty l = Except.ok (PyVal.ent ty attrs) := by
  have hce : CanonEnt env ty (PyVal.ent ty attrs) :=
    (import_canonical env hwf n1).1 ty m (PyVal.ent ty attrs) hm himp
  obtain ⟨l, hjl, hTn, n3, himp2⟩ :=
    (roundtrip_core env hwf (sizeOf (PyVal.ent ty attrs))).1 (PyVal.ent ty attrs) ty
      (le_refl _) hce ty n2 j hexp
  exact ⟨l, hjl, n3, himp2⟩

/-- Witness for the round-trip theorem: the two-class environment envWF,
the input mapping x = 5, child = (y = 7), and concrete fuels; the export
is computed and its dict re-imports to the identical entity. -/
theorem roundtrip_of_import_witness :
    WFEnv envWF ∧ entFreeP [("x", PyVal.int 5),
      ("child", PyVal.dict [("y", PyVal.int 7)])] = true ∧
    importE 9 envWF "P" [("x", PyVal.int 5),
      ("child", PyVal.dict [("y", PyVal.int 7)])] =
      Except.ok (PyVal.ent "P" [("x", PyVal.int 5),
        ("child", PyVal.ent "Q" [("y", PyVal.int 7)])]) ∧
    toJsonE 9 envWF false "P" [("x", PyVal.int 5),
      ("child", PyVal.ent "Q" [("y", PyVal.int 7)])] =
      Except.ok (PyVal.dict [("x", PyVal.int 5),
        ("child", PyVal.dict [("y", PyVal.int 7)])]) ∧
    ∃ l, PyVal.dict [("x", PyVal.int 5), ("child", PyVal.dict [("y", PyVal.int 7)])] =
        PyVal.dict l ∧
      ∃ n3, importE n3 envWF "P" l =
        Except.ok (PyVal.ent "P" [("x", PyVal.int 5),
          ("child", PyVal.ent "Q" [("y", PyVal.int 7)])]) :=
  ⟨envWF_wf, rfl, rfl, rfl,
    roundtrip_of_import envWF envWF_wf "P"
      [("x", PyVal.int 5), ("child", PyVal.dict [("y", PyVal.int 7)])] rfl
      [("x", PyVal.int 5), ("child", PyVal.ent "Q" [("y", PyVal.int 7)])]
      (PyVal.dict [("x", PyVal.int 5), ("child", PyVal.dict [("y", PyVal.int 7)])])
      9 9 rfl rfl⟩


end DataclassHelpers
